import Mathlib

/-!
# AM33xx (BeagleBone) UART driver: `bsp/beaglebone/drivers/serial.c`

A shallow embedding of the driver and the properties of its entry points.

* Memory-mapped registers are 32-bit cells addressed by the accessor that
  names them in the source (`UART_LCR_REG(base)`, `REG32(addr)`, ...).  A read
  returns the value the cell holds; a write replaces it.
* Every register access and every call into an external subsystem is appended
  to a chronological trace, so that the order of the driver's actions can be
  stated.
* Busy-wait loops take a bound on the number of polls and a function `env`
  that describes how the hardware changes the registers between two polls.
* The headers of the driver are not part of the sources: their constants are
  parameters (`RtDefs`, `Board`), and the external routines the driver calls
  are modelled from the specification of the driver.
-/

namespace Am33xxSerial

/-! ## Registers -/

/-- Registers of one UART block, one constructor per accessor `UART_x_REG`. -/
inductive UartReg where
  | RHR | THR | DLL | DLH | IER | IIR | LCR | LSR | MDR1 | MDR2
  deriving DecidableEq, Repr

/-- Registers of the PRCM block, one constructor per accessor `x_REG(prcm_base)`. -/
inductive PrcmReg where
  | PRM_PER_PWRSTST
  | PRM_PER_PWRSTCTRL
  | CM_PER_L4LS_CLKSTCTRL
  | CM_PER_UART1_CLKCTRL
  | CM_PER_UART2_CLKCTRL
  | CM_PER_UART3_CLKCTRL
  | CM_PER_UART4_CLKCTRL
  | CM_PER_UART5_CLKCTRL
  deriving DecidableEq, Repr

/-- Modelled from the spec: the register accessors of `serial_reg.h` and
`am33xx.h` (`UART_x_REG(base)`, `x_REG(prcm_base)`, `REG32(addr)`), which are
not part of the sources at hand.  Each accessor designates one 32-bit register
of the block at `base` (typed read/modify/write over a base address plus field
offsets); `reg32` is a register given by its absolute address. -/
inductive Reg where
  | uart (base : Nat) (r : UartReg)
  | prcm (base : Nat) (r : PrcmReg)
  | reg32 (addr : Nat)
  deriving DecidableEq, Repr

def UART_RHR_REG (base : Nat) : Reg := Reg.uart base UartReg.RHR
def UART_THR_REG (base : Nat) : Reg := Reg.uart base UartReg.THR
def UART_DLL_REG (base : Nat) : Reg := Reg.uart base UartReg.DLL
def UART_DLH_REG (base : Nat) : Reg := Reg.uart base UartReg.DLH
def UART_IER_REG (base : Nat) : Reg := Reg.uart base UartReg.IER
def UART_IIR_REG (base : Nat) : Reg := Reg.uart base UartReg.IIR
def UART_LCR_REG (base : Nat) : Reg := Reg.uart base UartReg.LCR
def UART_LSR_REG (base : Nat) : Reg := Reg.uart base UartReg.LSR
def UART_MDR1_REG (base : Nat) : Reg := Reg.uart base UartReg.MDR1
def UART_MDR2_REG (base : Nat) : Reg := Reg.uart base UartReg.MDR2
def PRM_PER_PWRSTST_REG (base : Nat) : Reg := Reg.prcm base PrcmReg.PRM_PER_PWRSTST
def PRM_PER_PWRSTCTRL_REG (base : Nat) : Reg := Reg.prcm base PrcmReg.PRM_PER_PWRSTCTRL
def CM_PER_L4LS_CLKSTCTRL_REG (base : Nat) : Reg := Reg.prcm base PrcmReg.CM_PER_L4LS_CLKSTCTRL
def CM_PER_UART1_CLKCTRL_REG (base : Nat) : Reg := Reg.prcm base PrcmReg.CM_PER_UART1_CLKCTRL
def CM_PER_UART2_CLKCTRL_REG (base : Nat) : Reg := Reg.prcm base PrcmReg.CM_PER_UART2_CLKCTRL
def CM_PER_UART3_CLKCTRL_REG (base : Nat) : Reg := Reg.prcm base PrcmReg.CM_PER_UART3_CLKCTRL
def CM_PER_UART4_CLKCTRL_REG (base : Nat) : Reg := Reg.prcm base PrcmReg.CM_PER_UART4_CLKCTRL
def CM_PER_UART5_CLKCTRL_REG (base : Nat) : Reg := Reg.prcm base PrcmReg.CM_PER_UART5_CLKCTRL
def REG32 (addr : Nat) : Reg := Reg.reg32 addr

/-! ## Constants of the absent headers -/

/-- Constants of `rtdef.h` / `rtdevice.h` used by the driver.  The headers are
not part of the sources at hand, so their values are a parameter. -/
structure RtDefs where
  RT_EOK : Int
  BAUD_RATE_115200 : Nat
  DATA_BITS_8 : Nat
  STOP_BITS_1 : Nat
  PARITY_NONE : Nat
  BIT_ORDER_LSB : Nat
  NRZ_NORMAL : Nat
  RT_DEVICE_CTRL_CLR_INT : Int
  RT_DEVICE_CTRL_SET_INT : Int
  RT_DEVICE_FLAG_RDWR : Nat
  RT_DEVICE_FLAG_INT_RX : Nat
  RT_DEVICE_FLAG_STREAM : Nat

/-- Addresses and interrupt numbers of `am33xx.h`, a parameter for the same
reason. -/
structure Board where
  UART0_BASE : Nat
  UART1_BASE : Nat
  UART2_BASE : Nat
  UART3_BASE : Nat
  UART4_BASE : Nat
  UART5_BASE : Nat
  UART0_INT : Nat
  UART1_INT : Nat
  UART2_INT : Nat
  UART3_INT : Nat
  UART4_INT : Nat
  UART5_INT : Nat
  AM33XX_PRCM_REGS : Nat
  AM33XX_CTLM_REGS : Nat

/-! ## Data model -/

/-- The `struct am33xx_uart` of the source. -/
structure am33xx_uart where
  base : Nat
  irq : Nat
  deriving DecidableEq, Repr

/-- The `struct serial_configure` of the framework: the six fields the driver
reads or writes. -/
structure serial_configure where
  baud_rate : Nat
  data_bits : Nat
  stop_bits : Nat
  parity : Nat
  bit_order : Nat
  invert : Nat
  deriving DecidableEq, Repr

/-- The one operation table of the source, `am33xx_uart_ops`. -/
inductive OpsRef where
  | am33xx_uart_ops
  deriving DecidableEq, Repr

/-- The fields of `struct rt_serial_device` the driver touches.  Pointers are
options (`none` is the null pointer); `int_rx = some k` is `&uart_int_rx[k]`,
and `user_data` is `parent.user_data`. -/
structure rt_serial_device where
  ops : Option OpsRef
  int_rx : Option Nat
  config : serial_configure
  user_data : Option am33xx_uart
  deriving DecidableEq, Repr

/-- The one interrupt handler of the source. -/
inductive Handler where
  | am33xx_uart_isr
  deriving DecidableEq, Repr

/-- What the driver does to the outside, in order: register accesses and calls
into the interrupt subsystem, the serial framework and the device directory.
A pointer `&serial[i]` is recorded as the index `i`; `serial_register` also
records the record it points to at the time of the call, and `&uart[i]` as the
controller it holds. -/
inductive Event where
  | read (r : Reg) (v : Nat)
  | write (r : Reg) (v : Nat)
  | interrupt_install (vector : Nat) (handler : Handler) (param : Nat) (name : String)
  | interrupt_control (vector : Nat) (cmd : Nat) (arg : Nat)
  | interrupt_mask (vector : Nat)
  | interrupt_umask (vector : Nat)
  | serial_register (idx : Nat) (dev : rt_serial_device) (name : String) (flag : Nat)
      (data : am33xx_uart)
  | serial_isr (dev : rt_serial_device)
  deriving DecidableEq, Repr

/-- The state the driver acts on: the register file, the mask bit of every
interrupt line, the global array `serial[6]`, and the trace of events so far
(oldest first). -/
structure Machine where
  regs : Reg → Nat
  masked : Nat → Bool
  serial : Nat → rt_serial_device
  trace : List Event

/-- How a call ends. -/
inductive Result (α : Type) where
  | ok (val : α) (m : Machine)
  | fatal (m : Machine)
  | undef
  | timeout

/-- A driver routine: a function of the machine state. -/
def Run (α : Type) : Type := Machine → Result α

def Run.pure {α : Type} (a : α) : Run α := fun m => Result.ok a m

def Run.bind {α β : Type} (x : Run α) (f : α → Run β) : Run β := fun m =>
  match x m with
  | Result.ok a m1 => f a m1
  | Result.fatal m1 => Result.fatal m1
  | Result.undef => Result.undef
  | Result.timeout => Result.timeout

instance : Monad Run where
  pure := Run.pure
  bind := Run.bind

/-- A 32-bit word. -/
def word32 (v : Nat) : Nat := v % 2 ^ 32

/-- The C operator `~` on a 32-bit word. -/
def not32 (v : Nat) : Nat := (2 ^ 32 - 1) ^^^ word32 v

/-- The value a read of register `r` returns. -/
def Machine.val (m : Machine) (r : Reg) : Nat := word32 (m.regs r)

/-- The machine after one more event. -/
def Machine.log (m : Machine) (e : Event) : Machine :=
  { m with trace := m.trace ++ [e] }

/-- The machine after `v` has been stored in register `r`. -/
def Machine.store (m : Machine) (r : Reg) (v : Nat) : Machine :=
  { m with regs := Function.update m.regs r (word32 v),
           trace := m.trace ++ [Event.write r (word32 v)] }

/-- Append one event to the trace. -/
def emit (e : Event) : Run Unit := fun m => Result.ok () (m.log e)

/-- Read of a register: `x = REG`. -/
def readReg (r : Reg) : Run Nat := fun m =>
  Result.ok (m.val r) (m.log (Event.read r (m.val r)))

/-- Write of a register: `REG = v`. -/
def writeReg (r : Reg) (v : Nat) : Run Unit := fun m =>
  Result.ok () (m.store r v)

/-- `REG |= v`: one read, one write. -/
def orReg (r : Reg) (v : Nat) : Run Unit := do
  let x ← readReg r
  writeReg r (x ||| v)

/-- `REG &= v`: one read, one write. -/
def andReg (r : Reg) (v : Nat) : Run Unit := do
  let x ← readReg r
  writeReg r (x &&& v)

/-- Modelled from the spec: the macro `RT_ASSERT` of the absent `rtdebug.h`.
A failed assertion is a fatal contract violation: the program halts and the
call does not return. -/
def RT_ASSERT (ex : Bool) : Run Unit := fun m =>
  if ex then Result.ok () m else Result.fatal m

/-- `#define NOT_IMPLEMENTED() RT_ASSERT(0)`. -/
def NOT_IMPLEMENTED : Run Unit := RT_ASSERT false

/-- Dereference of a pointer; behaviour is undefined on the null pointer. -/
def deref {α : Type} (p : Option α) : Run α := fun m =>
  match p with
  | some a => Result.ok a m
  | none => Result.undef

/-! ## Line configuration -/

/-- The function `am33xx_configure` of the source. -/
def am33xx_configure (K : RtDefs) (serial : Option rt_serial_device)
    (cfg : serial_configure) : Run Int := do
  RT_ASSERT serial.isSome
  let dev ← deref serial
  let uartp := dev.user_data
  RT_ASSERT uartp.isSome
  let uart ← deref uartp
  let base := uart.base
  if cfg.data_bits = K.DATA_BITS_8 then
    orReg (UART_LCR_REG base) 3
  else
    NOT_IMPLEMENTED
  if cfg.stop_bits = K.STOP_BITS_1 then
    andReg (UART_LCR_REG base) (not32 (1 <<< 2))
  else
    orReg (UART_LCR_REG base) (1 <<< 2)
  if cfg.parity = K.PARITY_NONE then
    andReg (UART_LCR_REG base) (not32 (1 <<< 3))
  else
    orReg (UART_LCR_REG base) (1 <<< 3)
  orReg (UART_LCR_REG base) (1 <<< 7)
  if cfg.baud_rate = K.BAUD_RATE_115200 then
    writeReg (UART_DLL_REG base) 26
    writeReg (UART_DLH_REG base) 0
  else
    NOT_IMPLEMENTED
  andReg (UART_LCR_REG base) (not32 (1 <<< 7))
  writeReg (UART_MDR1_REG base) 0
  writeReg (UART_MDR2_REG base) 0
  return K.RT_EOK

/-! ## Interrupt subsystem, serial framework, device directory -/

/-- Modelled from the spec: `rt_hw_interrupt_mask` of the absent interrupt
subsystem, `mask(interrupt_id)`: disables the line at the interrupt
controller. -/
def rt_hw_interrupt_mask (vector : Nat) : Run Unit := fun m =>
  Result.ok ()
    { m with masked := Function.update m.masked vector true,
             trace := m.trace ++ [Event.interrupt_mask vector] }

/-- Modelled from the spec: `rt_hw_interrupt_umask` of the absent interrupt
subsystem, `unmask(interrupt_id)`: enables the line at the interrupt
controller. -/
def rt_hw_interrupt_umask (vector : Nat) : Run Unit := fun m =>
  Result.ok ()
    { m with masked := Function.update m.masked vector false,
             trace := m.trace ++ [Event.interrupt_umask vector] }

/-- Modelled from the spec: `rt_hw_interrupt_install` of the absent interrupt
subsystem, the interrupt installation call
`(interrupt_id, handler, handler_argument, name_string)`; the call is recorded,
the dispatch table is outside this core. -/
def rt_hw_interrupt_install (vector : Nat) (handler : Handler) (param : Nat)
    (name : String) : Run Unit :=
  emit (Event.interrupt_install vector handler param name)

/-- Modelled from the spec: `rt_hw_interrupt_control` of the absent interrupt
subsystem, `configure_trigger(interrupt_id, ...)`; the call is recorded. -/
def rt_hw_interrupt_control (vector : Nat) (cmd : Nat) (arg : Nat) : Run Unit :=
  emit (Event.interrupt_control vector cmd arg)

/-- Modelled from the spec: `rt_hw_serial_register` of the absent serial
framework, the registration call
`(unit_handle, name_string, capability_flags, controller_reference)`; the call
is recorded together with the record `serial[idx]` as it is at that moment, the
directory is outside this core. -/
def rt_hw_serial_register (idx : Nat) (name : String) (flag : Nat)
    (data : am33xx_uart) : Run Unit := fun m =>
  Result.ok () (m.log (Event.serial_register idx (m.serial idx) name flag data))

/-- Modelled from the spec: `rt_hw_serial_isr` of the absent serial framework,
the external receive pump; the call is recorded, what the pump does is outside
this core. -/
def rt_hw_serial_isr (serial : rt_serial_device) : Run Unit :=
  emit (Event.serial_isr serial)

/-! ## Interrupt service routine -/

/-- The function `am33xx_uart_isr` of the source. -/
def am33xx_uart_isr (_irqno : Int) (param : Option rt_serial_device) : Run Unit := do
  let serial ← deref param
  let uart ← deref serial.user_data
  let iir ← readReg (UART_IIR_REG uart.base)
  if (iir &&& (0x02 <<< 1)) ≠ 0 ∨ (iir &&& (0x6 <<< 1)) ≠ 0 then
    rt_hw_serial_isr serial

/-! ## Control -/

/-- The function `am33xx_control` of the source.  The `switch` has two labels
and no default. -/
def am33xx_control (K : RtDefs) (serial : Option rt_serial_device) (cmd : Int)
    (_arg : Nat) : Run Int := do
  RT_ASSERT serial.isSome
  let dev ← deref serial
  let uartp := dev.user_data
  if cmd = K.RT_DEVICE_CTRL_CLR_INT then
    let uart ← deref uartp
    rt_hw_interrupt_mask uart.irq
  else if cmd = K.RT_DEVICE_CTRL_SET_INT then
    let uart ← deref uartp
    rt_hw_interrupt_umask uart.irq
  return K.RT_EOK

/-! ## Busy-waiting -/

/-- The hardware between two polls of a busy-wait loop: it may change any
register, as `env` says. -/
def hwStep (env : (Reg → Nat) → Reg → Nat) : Run Unit := fun m =>
  Result.ok () { m with regs := env m.regs }

/-- The loop `while (!done(REG)) ;` (each test is one read of `r`).  It returns
the last value read.  `fuel` bounds the number of unsuccessful polls that are
followed by another poll; beyond it the outcome is `timeout`. -/
def poll (env : (Reg → Nat) → Reg → Nat) (r : Reg) (done : Nat → Bool) :
    Nat → Run Nat
  | 0 => do
    let v ← readReg r
    if done v then return v else fun _ => Result.timeout
  | fuel + 1 => do
    let v ← readReg r
    if done v then return v
    else do
      hwStep env
      poll env r done fuel

/-! ## Transfer primitives -/

/-- Conversion of a value to the parameter type `char`.  The board support
package is built for the ARM core of the AM33xx, whose procedure call standard
makes `char` an unsigned 8-bit type, so the value later assigned to the 32-bit
register is the byte itself. -/
def toChar (c : Nat) : Nat := c % 256

/-- The function `am33xx_putc` of the source. -/
def am33xx_putc (env : (Reg → Nat) → Reg → Nat) (fuel : Nat)
    (serial : Option rt_serial_device) (c : Nat) : Run Int := do
  RT_ASSERT serial.isSome
  let dev ← deref serial
  let uart ← deref dev.user_data
  let _ ← poll env (UART_LSR_REG uart.base) (fun v => v &&& 0x20 != 0) fuel
  writeReg (UART_THR_REG uart.base) (toChar c)
  return 1

/-- The function `am33xx_getc` of the source. -/
def am33xx_getc (serial : Option rt_serial_device) : Run Int := do
  RT_ASSERT serial.isSome
  let dev ← deref serial
  let uart ← deref dev.user_data
  let mut ch : Int := -1
  if (← readReg (UART_LSR_REG uart.base)) &&& 0x01 ≠ 0 then
    ch := (((← readReg (UART_RHR_REG uart.base)) &&& 0xff : Nat) : Int)
  return ch

/-! ## Boot sequence -/

/-- The compile-time selection of units: one flag per macro `RT_USING_UARTn`. -/
structure BuildConfig where
  RT_USING_UART0 : Bool
  RT_USING_UART1 : Bool
  RT_USING_UART2 : Bool
  RT_USING_UART3 : Bool
  RT_USING_UART4 : Bool
  RT_USING_UART5 : Bool
  deriving DecidableEq, Repr

/-- The global table `uart[6]` of the source (indices above 5 are outside the
array and are never used). -/
def uart (B : Board) : Nat → am33xx_uart
  | 0 => { base := B.UART0_BASE, irq := B.UART0_INT }
  | 1 => { base := B.UART1_BASE, irq := B.UART1_INT }
  | 2 => { base := B.UART2_BASE, irq := B.UART2_INT }
  | 3 => { base := B.UART3_BASE, irq := B.UART3_INT }
  | 4 => { base := B.UART4_BASE, irq := B.UART4_INT }
  | 5 => { base := B.UART5_BASE, irq := B.UART5_INT }
  | _ => { base := 0, irq := 0 }

def PRM_PER_INTRANSLATION : Nat := 1 <<< 20
def PRM_PER_POWSTATEOFF : Nat := 0
def PRM_PER_PERMEMSTATEOFF : Nat := 0

/-- The function `poweron_per_domain` of the source. -/
def poweron_per_domain (B : Board) (env : (Reg → Nat) → Reg → Nat) (fuel : Nat) :
    Run Unit := do
  let prcm_base := B.AM33XX_PRCM_REGS
  let prm_state ← poll env (PRM_PER_PWRSTST_REG prcm_base)
    (fun v => v &&& PRM_PER_INTRANSLATION == 0) fuel
  if prm_state &&& 0x03 = PRM_PER_POWSTATEOFF then
    orReg (PRM_PER_PWRSTCTRL_REG prcm_base) 0x3
  if prm_state &&& 0x03 = PRM_PER_PERMEMSTATEOFF then
    orReg (PRM_PER_PWRSTCTRL_REG prcm_base) (0x3 <<< 25)
  let _ ← poll env (PRM_PER_PWRSTST_REG prcm_base)
    (fun v => v &&& PRM_PER_INTRANSLATION == 0) fuel

/-- The preprocessor block `#ifdef flag ... #endif`: the body is part of the
program when the flag is defined and absent otherwise. -/
def ifdef (flag : Bool) (body : Run Unit) : Run Unit :=
  if flag then body else pure ()

/-- One `#ifdef RT_USING_UARTn` block of `start_uart_clk`: the five blocks of
the source are this text with the clock-control register of unit `n` for
`clkctrl`. -/
def uart_clk_enable (env : (Reg → Nat) → Reg → Nat) (fuel : Nat) (clkctrl : Reg) :
    Run Unit := do
  orReg clkctrl 0x2
  let _ ← poll env clkctrl (fun v => !(v &&& (0x3 <<< 16) != 0)) fuel

/-- The function `start_uart_clk` of the source.  There is no block for
unit 0. -/
def start_uart_clk (C : BuildConfig) (B : Board) (env : (Reg → Nat) → Reg → Nat)
    (fuel : Nat) : Run Unit := do
  let prcm_base := B.AM33XX_PRCM_REGS
  orReg (CM_PER_L4LS_CLKSTCTRL_REG prcm_base) 0x2
  let _ ← poll env (CM_PER_L4LS_CLKSTCTRL_REG prcm_base)
    (fun v => v &&& (1 <<< 8) != 0) fuel
  ifdef C.RT_USING_UART1 (uart_clk_enable env fuel (CM_PER_UART1_CLKCTRL_REG prcm_base))
  ifdef C.RT_USING_UART2 (uart_clk_enable env fuel (CM_PER_UART2_CLKCTRL_REG prcm_base))
  ifdef C.RT_USING_UART3 (uart_clk_enable env fuel (CM_PER_UART3_CLKCTRL_REG prcm_base))
  ifdef C.RT_USING_UART4 (uart_clk_enable env fuel (CM_PER_UART4_CLKCTRL_REG prcm_base))
  ifdef C.RT_USING_UART5 (uart_clk_enable env fuel (CM_PER_UART5_CLKCTRL_REG prcm_base))
  let _ ← poll env (CM_PER_L4LS_CLKSTCTRL_REG prcm_base)
    (fun v => v &&& (1 <<< 10) != 0) fuel

/-- The function `config_pinmux` of the source.  There is no block for unit 0,
and the block of unit 3 writes one register. -/
def config_pinmux (C : BuildConfig) (B : Board) : Run Unit := do
  let ctlm_base := B.AM33XX_CTLM_REGS
  ifdef C.RT_USING_UART1 do
    writeReg (REG32 (ctlm_base + 0x800 + 0x180)) 0x20
    writeReg (REG32 (ctlm_base + 0x800 + 0x184)) 0x00
  ifdef C.RT_USING_UART2 do
    writeReg (REG32 (ctlm_base + 0x800 + 0x150)) 0x20
    writeReg (REG32 (ctlm_base + 0x800 + 0x154)) 0x00
  ifdef C.RT_USING_UART3 do
    writeReg (REG32 (ctlm_base + 0x800 + 0x164)) 0x01
  ifdef C.RT_USING_UART4 do
    writeReg (REG32 (ctlm_base + 0x800 + 0x070)) 0x26
    writeReg (REG32 (ctlm_base + 0x800 + 0x074)) 0x06
  ifdef C.RT_USING_UART5 do
    writeReg (REG32 (ctlm_base + 0x800 + 0x0C4)) 0x24
    writeReg (REG32 (ctlm_base + 0x800 + 0x0C0)) 0x04

/-- Assignment to a field of the global `serial[i]`. -/
def setSerial (i : Nat) (f : rt_serial_device → rt_serial_device) : Run Unit := fun m =>
  Result.ok () { m with serial := Function.update m.serial i (f (m.serial i)) }

/-- One `#ifdef RT_USING_UARTi` block of `rt_hw_serial_init`; the six blocks of
the source are this text with `i` and the name replaced. -/
def serial_init_unit (K : RtDefs) (B : Board) (i : Nat) (name : String) : Run Unit := do
  let config_i : serial_configure :=
    { baud_rate := K.BAUD_RATE_115200
      bit_order := K.BIT_ORDER_LSB
      data_bits := K.DATA_BITS_8
      parity := K.PARITY_NONE
      stop_bits := K.STOP_BITS_1
      invert := K.NRZ_NORMAL }
  setSerial i (fun d => { d with ops := some OpsRef.am33xx_uart_ops })
  setSerial i (fun d => { d with int_rx := some i })
  setSerial i (fun d => { d with config := config_i })
  writeReg (UART_IER_REG (uart B i).base) 0x01
  rt_hw_interrupt_install (uart B i).irq Handler.am33xx_uart_isr i name
  rt_hw_interrupt_control (uart B i).irq 0 0
  rt_hw_interrupt_mask (uart B i).irq
  rt_hw_serial_register i name
    (K.RT_DEVICE_FLAG_RDWR ||| K.RT_DEVICE_FLAG_INT_RX ||| K.RT_DEVICE_FLAG_STREAM)
    (uart B i)

/-- The function `rt_hw_serial_init` of the source. -/
def rt_hw_serial_init (K : RtDefs) (C : BuildConfig) (B : Board)
    (env : (Reg → Nat) → Reg → Nat) (fuel : Nat) : Run Int := do
  poweron_per_domain B env fuel
  start_uart_clk C B env fuel
  config_pinmux C B
  ifdef C.RT_USING_UART0 (serial_init_unit K B 0 "uart0")
  ifdef C.RT_USING_UART1 (serial_init_unit K B 1 "uart1")
  ifdef C.RT_USING_UART2 (serial_init_unit K B 2 "uart2")
  ifdef C.RT_USING_UART3 (serial_init_unit K B 3 "uart3")
  ifdef C.RT_USING_UART4 (serial_init_unit K B 4 "uart4")
  ifdef C.RT_USING_UART5 (serial_init_unit K B 5 "uart5")
  return 0

/-! ## Observations on traces -/

/-- The register writes of a trace, in order. -/
def writesOf (t : List Event) : List (Reg × Nat) :=
  t.filterMap fun e =>
    match e with
    | Event.write r v => some (r, v)
    | _ => none

/-- The writes to a register other than `lcr` that are made while bit 7 of
`lcr` is set; `dlab` is bit 7 before the first write, afterwards it is bit 7 of
the last value written to `lcr`. -/
def writesUnderDlab (lcr : Reg) : Bool → List (Reg × Nat) → List (Reg × Nat)
  | _, [] => []
  | dlab, (r, v) :: ws =>
    if r = lcr then writesUnderDlab lcr (v.testBit 7) ws
    else if dlab then (r, v) :: writesUnderDlab lcr dlab ws
    else writesUnderDlab lcr dlab ws

/-- The five values `am33xx_configure` writes to the line-control register, as
a function of the value `L` it holds at the start. -/
def lcrOr3 (L : Nat) : Nat := word32 (L ||| 3)

def lcrStop (K : RtDefs) (cfg : serial_configure) (L : Nat) : Nat :=
  if cfg.stop_bits = K.STOP_BITS_1 then word32 (lcrOr3 L &&& not32 (1 <<< 2))
  else word32 (lcrOr3 L ||| (1 <<< 2))

def lcrParity (K : RtDefs) (cfg : serial_configure) (L : Nat) : Nat :=
  if cfg.parity = K.PARITY_NONE then word32 (lcrStop K cfg L &&& not32 (1 <<< 3))
  else word32 (lcrStop K cfg L ||| (1 <<< 3))

def lcrDlabOn (K : RtDefs) (cfg : serial_configure) (L : Nat) : Nat :=
  word32 (lcrParity K cfg L ||| (1 <<< 7))

def lcrDlabOff (K : RtDefs) (cfg : serial_configure) (L : Nat) : Nat :=
  word32 (lcrDlabOn K cfg L &&& not32 (1 <<< 7))

/-- The machine a successful `am33xx_configure` leaves, statement by
statement. -/
def configured (K : RtDefs) (cfg : serial_configure) (base : Nat) (m : Machine) : Machine :=
  let lcr := UART_LCR_REG base
  let rmw (m : Machine) (f : Nat → Nat) : Machine :=
    (m.log (Event.read lcr (m.val lcr))).store lcr (f (m.val lcr))
  let m1 := rmw m (fun x => x ||| 3)
  let m2 := if cfg.stop_bits = K.STOP_BITS_1 then rmw m1 (fun x => x &&& not32 (1 <<< 2))
            else rmw m1 (fun x => x ||| (1 <<< 2))
  let m3 := if cfg.parity = K.PARITY_NONE then rmw m2 (fun x => x &&& not32 (1 <<< 3))
            else rmw m2 (fun x => x ||| (1 <<< 3))
  let m4 := rmw m3 (fun x => x ||| (1 <<< 7))
  let m5 := (m4.store (UART_DLL_REG base) 26).store (UART_DLH_REG base) 0
  let m6 := rmw m5 (fun x => x &&& not32 (1 <<< 7))
  (m6.store (UART_MDR1_REG base) 0).store (UART_MDR2_REG base) 0

/-! ## Concrete data for evaluation -/

/-- One assignment of the header constants. -/
def exampleDefs : RtDefs :=
  { RT_EOK := 0
    BAUD_RATE_115200 := 115200
    DATA_BITS_8 := 8
    STOP_BITS_1 := 0
    PARITY_NONE := 0
    BIT_ORDER_LSB := 0
    NRZ_NORMAL := 0
    RT_DEVICE_CTRL_CLR_INT := 0x11
    RT_DEVICE_CTRL_SET_INT := 0x10
    RT_DEVICE_FLAG_RDWR := 0x003
    RT_DEVICE_FLAG_INT_RX := 0x100
    RT_DEVICE_FLAG_STREAM := 0x040 }

/-- One assignment of the board constants. -/
def exampleBoard : Board :=
  { UART0_BASE := 0x44E09000
    UART1_BASE := 0x48022000
    UART2_BASE := 0x48024000
    UART3_BASE := 0x481A6000
    UART4_BASE := 0x481A8000
    UART5_BASE := 0x481AA000
    UART0_INT := 72
    UART1_INT := 73
    UART2_INT := 74
    UART3_INT := 44
    UART4_INT := 45
    UART5_INT := 46
    AM33XX_PRCM_REGS := 0x44E00000
    AM33XX_CTLM_REGS := 0x44E10000 }

/-- The supported request: 115200, 8 data bits, 1 stop bit, no parity,
LSB first, normal polarity. -/
def exampleConfig : serial_configure :=
  { baud_rate := 115200, data_bits := 8, stop_bits := 0, parity := 0, bit_order := 0,
    invert := 0 }

/-- A device record bound to unit 1 of `exampleBoard`. -/
def exampleDevice : rt_serial_device :=
  { ops := some OpsRef.am33xx_uart_ops, int_rx := some 1, config := exampleConfig,
    user_data := some (uart exampleBoard 1) }

/-- A machine in which every register holds `0xFF`, no line is masked and
nothing has happened yet. -/
def exampleMachine : Machine :=
  { regs := fun _ => 0xFF
    masked := fun _ => false
    serial := fun _ => { ops := none, int_rx := none, config := ⟨0, 0, 0, 0, 0, 0⟩,
                         user_data := none }
    trace := [] }

/-- A machine in which every register holds `0`, every line is masked and
nothing has happened yet. -/
def idleMachine : Machine :=
  { regs := fun _ => 0
    masked := fun _ => true
    serial := fun _ => { ops := none, int_rx := none, config := ⟨0, 0, 0, 0, 0, 0⟩,
                         user_data := none }
    trace := [] }

/-- Hardware that raises bit 5 of every register between two polls. -/
def exampleEnv : (Reg → Nat) → Reg → Nat := fun regs r => regs r ||| 0x20

/-- The values returned by `n` successive calls of `am33xx_getc`, in order. -/
def getc_repeat (serial : Option rt_serial_device) : Nat → Run (List Int)
  | 0 => pure []
  | n + 1 => do
    let c ← am33xx_getc serial
    let cs ← getc_repeat serial n
    return c :: cs

/-! ## Observations on the boot sequence -/

/-- This event is a step of the registry glue: a write to a register of a UART
block, or a call into an external subsystem. -/
def Event.isStep : Event → Bool
  | Event.read _ _ => false
  | Event.write (Reg.uart _ _) _ => true
  | Event.write _ _ => false
  | _ => true

/-- The glue steps of a trace, in order. -/
def stepsOf (t : List Event) : List Event := t.filter Event.isStep

/-- This event is a registration call. -/
def Event.isRegistration : Event → Bool
  | Event.serial_register _ _ _ _ _ => true
  | _ => false

/-- The registration calls of a trace, in order. -/
def registrationsOf (t : List Event) : List Event := t.filter Event.isRegistration

/-- Unit `i` is selected at compile time. -/
def BuildConfig.enabled (C : BuildConfig) : Nat → Bool
  | 0 => C.RT_USING_UART0
  | 1 => C.RT_USING_UART1
  | 2 => C.RT_USING_UART2
  | 3 => C.RT_USING_UART3
  | 4 => C.RT_USING_UART4
  | 5 => C.RT_USING_UART5
  | _ => false

/-- The selected units in ascending order. -/
def enabledUnits (C : BuildConfig) : List Nat := (List.range 6).filter C.enabled

/-- The name under which unit `i` is published. -/
def unitName : Nat → String
  | 0 => "uart0"
  | 1 => "uart1"
  | 2 => "uart2"
  | 3 => "uart3"
  | 4 => "uart4"
  | 5 => "uart5"
  | _ => ""

/-- The default configuration: 115200, 8 data bits, 1 stop bit, no parity,
LSB first, normal polarity. -/
def defaultConfig (K : RtDefs) : serial_configure :=
  { baud_rate := K.BAUD_RATE_115200
    data_bits := K.DATA_BITS_8
    stop_bits := K.STOP_BITS_1
    parity := K.PARITY_NONE
    bit_order := K.BIT_ORDER_LSB
    invert := K.NRZ_NORMAL }

/-- The device record of unit `i` when it is registered: the shared operation
table, ring buffer `uart_int_rx[i]`, the default configuration; `user_data` is
what `serial[i]` held before. -/
def unitRecord (K : RtDefs) (m : Machine) (i : Nat) : rt_serial_device :=
  { ops := some OpsRef.am33xx_uart_ops
    int_rx := some i
    config := defaultConfig K
    user_data := (m.serial i).user_data }

/-- The capability flags of a published unit. -/
def unitFlags (K : RtDefs) : Nat :=
  K.RT_DEVICE_FLAG_RDWR ||| K.RT_DEVICE_FLAG_INT_RX ||| K.RT_DEVICE_FLAG_STREAM

/-- The registration call of unit `i`. -/
def unitRegistration (K : RtDefs) (B : Board) (m : Machine) (i : Nat) : Event :=
  Event.serial_register i (unitRecord K m i) (unitName i) (unitFlags K) (uart B i)

/-- The glue steps of unit `i`, in order: receive interrupt enabled in the
unit, handler installed, trigger configured, line masked, unit registered. -/
def unitSteps (K : RtDefs) (B : Board) (m : Machine) (i : Nat) : List Event :=
  [ Event.write (UART_IER_REG (uart B i).base) 0x01,
    Event.interrupt_install (uart B i).irq Handler.am33xx_uart_isr i (unitName i),
    Event.interrupt_control (uart B i).irq 0 0,
    Event.interrupt_mask (uart B i).irq,
    unitRegistration K B m i ]

/-- The machine after the block of unit `i` in `rt_hw_serial_init`. -/
def unitDone (K : RtDefs) (B : Board) (m : Machine) (i : Nat) : Machine :=
  { regs := Function.update m.regs (UART_IER_REG (uart B i).base) 0x01
    masked := Function.update m.masked (uart B i).irq true
    serial := Function.update m.serial i (unitRecord K m i)
    trace := m.trace ++ unitSteps K B m i }

/-- The clock-control register that `start_uart_clk` programs for unit `i`;
there is none for unit 0. -/
def clkctrlOf (B : Board) : Nat → Option Reg
  | 1 => some (CM_PER_UART1_CLKCTRL_REG B.AM33XX_PRCM_REGS)
  | 2 => some (CM_PER_UART2_CLKCTRL_REG B.AM33XX_PRCM_REGS)
  | 3 => some (CM_PER_UART3_CLKCTRL_REG B.AM33XX_PRCM_REGS)
  | 4 => some (CM_PER_UART4_CLKCTRL_REG B.AM33XX_PRCM_REGS)
  | 5 => some (CM_PER_UART5_CLKCTRL_REG B.AM33XX_PRCM_REGS)
  | _ => none

/-- The pad-control writes of `config_pinmux` for unit `i`: two for units 1, 2,
4 and 5, one for unit 3, none for unit 0. -/
def padWrites (B : Board) : Nat → List Event
  | 1 => [ Event.write (REG32 (B.AM33XX_CTLM_REGS + 0x800 + 0x180)) 0x20,
           Event.write (REG32 (B.AM33XX_CTLM_REGS + 0x800 + 0x184)) 0x00 ]
  | 2 => [ Event.write (REG32 (B.AM33XX_CTLM_REGS + 0x800 + 0x150)) 0x20,
           Event.write (REG32 (B.AM33XX_CTLM_REGS + 0x800 + 0x154)) 0x00 ]
  | 3 => [ Event.write (REG32 (B.AM33XX_CTLM_REGS + 0x800 + 0x164)) 0x01 ]
  | 4 => [ Event.write (REG32 (B.AM33XX_CTLM_REGS + 0x800 + 0x070)) 0x26,
           Event.write (REG32 (B.AM33XX_CTLM_REGS + 0x800 + 0x074)) 0x06 ]
  | 5 => [ Event.write (REG32 (B.AM33XX_CTLM_REGS + 0x800 + 0x0C4)) 0x24,
           Event.write (REG32 (B.AM33XX_CTLM_REGS + 0x800 + 0x0C0)) 0x04 ]
  | _ => []

/-- From every register state the hardware satisfies the test `done` on
register `r` after at most `n` of its steps. -/
def AnswersWithin (env : (Reg → Nat) → Reg → Nat) (n : Nat) (r : Reg)
    (done : Nat → Bool) : Prop :=
  ∀ regs : Reg → Nat, ∃ k, k ≤ n ∧ done (word32 ((env^[k] regs) r)) = true

/-- The hardware answers every busy-wait of the boot sequence within `n`
polls: the power domain leaves its transition, the L4LS clock domain shows its
two activity bits, and the clock of every selected unit among 1..5 becomes
functional. -/
def BootResponsive (C : BuildConfig) (B : Board) (env : (Reg → Nat) → Reg → Nat)
    (n : Nat) : Prop :=
  AnswersWithin env n (PRM_PER_PWRSTST_REG B.AM33XX_PRCM_REGS)
    (fun v => v &&& PRM_PER_INTRANSLATION == 0) ∧
  AnswersWithin env n (CM_PER_L4LS_CLKSTCTRL_REG B.AM33XX_PRCM_REGS)
    (fun v => v &&& (1 <<< 8) != 0) ∧
  AnswersWithin env n (CM_PER_L4LS_CLKSTCTRL_REG B.AM33XX_PRCM_REGS)
    (fun v => v &&& (1 <<< 10) != 0) ∧
  ∀ i r, C.enabled i = true → clkctrlOf B i = some r →
    AnswersWithin env n r (fun v => !(v &&& (0x3 <<< 16) != 0))

/-- The machine after the unit blocks of `rt_hw_serial_init`. -/
def unitsDone (K : RtDefs) (C : BuildConfig) (B : Board) (m : Machine) : Machine :=
  (enabledUnits C).foldl (unitDone K B) m

/-- The register is not one of a UART block. -/
def NotUart (r : Reg) : Prop := ∀ v, (Event.write r v).isStep = false

/-- A run that changes nothing but the registers and adds no glue step. -/
def Quiet (m m' : Machine) : Prop :=
  ∃ evs, m'.trace = m.trace ++ evs ∧ stepsOf evs = [] ∧ m'.masked = m.masked ∧
    m'.serial = m.serial

/-- Only unit 0 is selected. -/
def onlyUart0 : BuildConfig :=
  { RT_USING_UART0 := true, RT_USING_UART1 := false, RT_USING_UART2 := false,
    RT_USING_UART3 := false, RT_USING_UART4 := false, RT_USING_UART5 := false }

/-- Only unit 1 is selected. -/
def onlyUart1 : BuildConfig :=
  { RT_USING_UART0 := false, RT_USING_UART1 := true, RT_USING_UART2 := false,
    RT_USING_UART3 := false, RT_USING_UART4 := false, RT_USING_UART5 := false }

/-- Only unit 3 is selected. -/
def onlyUart3 : BuildConfig :=
  { RT_USING_UART0 := false, RT_USING_UART1 := false, RT_USING_UART2 := false,
    RT_USING_UART3 := true, RT_USING_UART4 := false, RT_USING_UART5 := false }

/-- A machine whose power and clock domains are up: the L4LS clock domain shows
both activity bits, every other register holds 0, no line is masked. -/
def readyMachine : Machine :=
  { regs := fun r =>
      if r = CM_PER_L4LS_CLKSTCTRL_REG exampleBoard.AM33XX_PRCM_REGS then 0x500 else 0
    masked := fun _ => false
    serial := fun _ => { ops := none, int_rx := none, config := ⟨0, 0, 0, 0, 0, 0⟩,
                         user_data := none }
    trace := [] }

/-- Hardware that has the power and clock domains up one step later, whatever
the registers held. -/
def readyEnv : (Reg → Nat) → Reg → Nat := fun _ r =>
  if r = CM_PER_L4LS_CLKSTCTRL_REG exampleBoard.AM33XX_PRCM_REGS then 0x500 else 0

/-! ## Execution lemmas -/

theorem bind_apply {α β : Type} (x : Run α) (f : α → Run β) (m : Machine) :
    (x >>= f) m = Run.bind x f m := rfl

theorem pure_apply {α : Type} (a : α) (m : Machine) :
    (pure a : Run α) m = Result.ok a m := rfl

theorem ite_run {α : Type} (c : Prop) [Decidable c] (x y : Run α) (m : Machine) :
    (if c then x else y) m = if c then x m else y m := by
  split <;> rfl

theorem orReg_apply (r : Reg) (v : Nat) (m : Machine) :
    orReg r v m
      = Result.ok () ((m.log (Event.read r (m.val r))).store r (m.val r ||| v)) := rfl

theorem andReg_apply (r : Reg) (v : Nat) (m : Machine) :
    andReg r v m
      = Result.ok () ((m.log (Event.read r (m.val r))).store r (m.val r &&& v)) := rfl

theorem writeReg_apply (r : Reg) (v : Nat) (m : Machine) :
    writeReg r v m = Result.ok () (m.store r v) := rfl

theorem readReg_apply (r : Reg) (m : Machine) :
    readReg r m = Result.ok (m.val r) (m.log (Event.read r (m.val r))) := rfl

theorem word32_idem (x : Nat) : word32 (word32 x) = word32 x := by
  simp [word32]

theorem testBit_word32 (x k : Nat) :
    (word32 x).testBit k = (decide (k < 32) && x.testBit k) :=
  Nat.testBit_mod_two_pow x 32 k

theorem testBit_not32 (x k : Nat) :
    (not32 x).testBit k = (decide (k < 32) && !x.testBit k) := by
  unfold not32
  rw [Nat.testBit_xor, Nat.testBit_two_pow_sub_one, testBit_word32]
  by_cases h : k < 32 <;> simp [h]

theorem testBit_lit3 (k : Nat) : Nat.testBit 3 k = decide (k < 2) :=
  Nat.testBit_two_pow_sub_one 2 k

theorem testBit_lit4 (k : Nat) : Nat.testBit 4 k = decide (2 = k) :=
  @Nat.testBit_two_pow 2 k

theorem testBit_lit8 (k : Nat) : Nat.testBit 8 k = decide (3 = k) :=
  @Nat.testBit_two_pow 3 k

theorem val_store (m : Machine) (r r' : Reg) (v : Nat) :
    (m.store r v).val r' = if r' = r then word32 v else m.val r' := by
  unfold Machine.store Machine.val
  by_cases h : r' = r
  · subst h; simp [word32]
  · simp [Function.update, h]

theorem val_log (m : Machine) (e : Event) (r : Reg) : (m.log e).val r = m.val r := rfl

theorem trace_store (m : Machine) (r : Reg) (v : Nat) :
    (m.store r v).trace = m.trace ++ [Event.write r (word32 v)] := rfl

theorem trace_log (m : Machine) (e : Event) : (m.log e).trace = m.trace ++ [e] := rfl

theorem regs_log (m : Machine) (e : Event) : (m.log e).regs = m.regs := rfl

theorem testBit_val_lt (m : Machine) (r : Reg) (k : Nat)
    (h : (m.val r).testBit k = true) : k < 32 := by
  unfold Machine.val at h
  rw [testBit_word32] at h
  simp at h
  exact h.1

/-- With 8 data bits and the 115200 rate requested of a bound unit,
`am33xx_configure` runs to its `return` and leaves `configured`. -/
theorem configure_ok (K : RtDefs) (o : Option OpsRef) (rx : Option Nat)
    (c0 : serial_configure) (u : am33xx_uart) (cfg : serial_configure) (m : Machine)
    (h8 : cfg.data_bits = K.DATA_BITS_8) (hb : cfg.baud_rate = K.BAUD_RATE_115200) :
    am33xx_configure K (some ⟨o, rx, c0, some u⟩) cfg m
      = Result.ok K.RT_EOK (configured K cfg u.base m) := by
  by_cases hs : cfg.stop_bits = K.STOP_BITS_1 <;>
  by_cases hp : cfg.parity = K.PARITY_NONE <;>
  simp [am33xx_configure, configured, bind_apply, Run.bind, pure_apply, ite_run,
    RT_ASSERT, deref, h8, hb, hs, hp, orReg_apply, andReg_apply, writeReg_apply,
    NOT_IMPLEMENTED]

/-- Without 8 data bits or without the 115200 rate, `am33xx_configure` ends in
a failed assertion, whatever `serial` is. -/
theorem configure_fatal (K : RtDefs) (serial : Option rt_serial_device)
    (cfg : serial_configure) (m : Machine)
    (h : cfg.data_bits ≠ K.DATA_BITS_8 ∨ cfg.baud_rate ≠ K.BAUD_RATE_115200) :
    ∃ m', am33xx_configure K serial cfg m = Result.fatal m' := by
  rcases serial with _ | ⟨o, rx, c0, _ | u⟩
  · exact ⟨m, by simp [am33xx_configure, bind_apply, Run.bind, RT_ASSERT]⟩
  · exact ⟨m, by simp [am33xx_configure, bind_apply, Run.bind, RT_ASSERT, deref]⟩
  · by_cases h8 : cfg.data_bits = K.DATA_BITS_8
    · have hb : cfg.baud_rate ≠ K.BAUD_RATE_115200 := by
        rcases h with h | h
        · exact absurd h8 h
        · exact h
      by_cases hs : cfg.stop_bits = K.STOP_BITS_1 <;>
      by_cases hp : cfg.parity = K.PARITY_NONE <;>
      exact ⟨_, by
        simp [am33xx_configure, bind_apply, Run.bind, pure_apply, ite_run,
          RT_ASSERT, deref, h8, hb, hs, hp, orReg_apply, andReg_apply, writeReg_apply,
          NOT_IMPLEMENTED]
        rfl⟩
    · exact ⟨m, by
        simp [am33xx_configure, bind_apply, Run.bind, pure_apply, ite_run,
          RT_ASSERT, deref, h8, NOT_IMPLEMENTED]⟩

theorem val_configured (K : RtDefs) (cfg : serial_configure) (base : Nat) (m : Machine) :
    (configured K cfg base m).val (UART_LCR_REG base)
      = lcrDlabOff K cfg (m.val (UART_LCR_REG base)) := by
  by_cases hs : cfg.stop_bits = K.STOP_BITS_1 <;>
  by_cases hp : cfg.parity = K.PARITY_NONE <;>
  simp [configured, lcrDlabOff, lcrDlabOn, lcrParity, lcrStop, lcrOr3, hs, hp, val_store,
    val_log, word32_idem, UART_LCR_REG, UART_DLL_REG, UART_DLH_REG, UART_MDR1_REG,
    UART_MDR2_REG]

theorem trace_configured (K : RtDefs) (cfg : serial_configure) (base : Nat) (m : Machine) :
    (configured K cfg base m).trace = m.trace ++
      [ Event.read (UART_LCR_REG base) (m.val (UART_LCR_REG base)),
        Event.write (UART_LCR_REG base) (lcrOr3 (m.val (UART_LCR_REG base))),
        Event.read (UART_LCR_REG base) (lcrOr3 (m.val (UART_LCR_REG base))),
        Event.write (UART_LCR_REG base) (lcrStop K cfg (m.val (UART_LCR_REG base))),
        Event.read (UART_LCR_REG base) (lcrStop K cfg (m.val (UART_LCR_REG base))),
        Event.write (UART_LCR_REG base) (lcrParity K cfg (m.val (UART_LCR_REG base))),
        Event.read (UART_LCR_REG base) (lcrParity K cfg (m.val (UART_LCR_REG base))),
        Event.write (UART_LCR_REG base) (lcrDlabOn K cfg (m.val (UART_LCR_REG base))),
        Event.write (UART_DLL_REG base) 26,
        Event.write (UART_DLH_REG base) 0,
        Event.read (UART_LCR_REG base) (lcrDlabOn K cfg (m.val (UART_LCR_REG base))),
        Event.write (UART_LCR_REG base) (lcrDlabOff K cfg (m.val (UART_LCR_REG base))),
        Event.write (UART_MDR1_REG base) 0,
        Event.write (UART_MDR2_REG base) 0 ] := by
  by_cases hs : cfg.stop_bits = K.STOP_BITS_1 <;>
  by_cases hp : cfg.parity = K.PARITY_NONE <;>
  simp [configured, lcrDlabOff, lcrDlabOn, lcrParity, lcrStop, lcrOr3, hs, hp, val_store,
    val_log, trace_store, trace_log, word32_idem, UART_LCR_REG, UART_DLL_REG, UART_DLH_REG,
    UART_MDR1_REG, UART_MDR2_REG] <;>
  simp [word32]

theorem lcrDlabOff_testBit (K : RtDefs) (cfg : serial_configure) (L k : Nat) :
    (lcrDlabOff K cfg L).testBit k =
      (decide (k < 32) && !decide (k = 7) &&
        (if k = 3 then decide (cfg.parity ≠ K.PARITY_NONE)
         else if k = 2 then decide (cfg.stop_bits ≠ K.STOP_BITS_1)
         else (decide (k < 2) || L.testBit k))) := by
  by_cases hs : cfg.stop_bits = K.STOP_BITS_1 <;>
  by_cases hp : cfg.parity = K.PARITY_NONE <;>
  simp only [lcrDlabOff, lcrDlabOn, lcrParity, lcrStop, lcrOr3, hs, hp, testBit_word32,
      testBit_not32, Nat.testBit_or, Nat.testBit_and, testBit_lit3, Nat.one_shiftLeft,
      Nat.testBit_two_pow, if_true, if_false, ne_eq, not_true_eq_false, not_false_eq_true,
      decide_True, decide_False] <;>
  generalize L.testBit k = b <;>
  by_cases h32 : k < 32 <;> by_cases h7 : k = 7 <;> by_cases h3 : k = 3 <;>
  by_cases h2 : k = 2 <;> by_cases h1 : k < 2 <;> cases b <;>
  simp [h32, h7, h3, h2, h1] <;> omega

theorem lcrDlabOn_testBit7 (K : RtDefs) (cfg : serial_configure) (L : Nat) :
    (lcrDlabOn K cfg L).testBit 7 = true := by
  simp only [lcrDlabOn, testBit_word32, Nat.testBit_or, Nat.one_shiftLeft,
    Nat.testBit_two_pow]
  simp

/-- A call of `am33xx_configure` that returns was made with 8 data bits and the
115200 rate. -/
theorem configure_ok_inv (K : RtDefs) (serial : Option rt_serial_device)
    (cfg : serial_configure) (m : Machine) (v : Int) (m' : Machine)
    (h : am33xx_configure K serial cfg m = Result.ok v m') :
    cfg.data_bits = K.DATA_BITS_8 ∧ cfg.baud_rate = K.BAUD_RATE_115200 := by
  by_contra hne
  have hor : cfg.data_bits ≠ K.DATA_BITS_8 ∨ cfg.baud_rate ≠ K.BAUD_RATE_115200 := by
    by_cases h8 : cfg.data_bits = K.DATA_BITS_8
    · right
      intro hb
      exact hne ⟨h8, hb⟩
    · left
      exact h8
  obtain ⟨mf, hf⟩ := configure_fatal K serial cfg m hor
  rw [hf] at h
  exact Result.noConfusion h

/-! ## Line configuration: the claims -/

/-- C1: for every unit and every initial register state, `am33xx_configure`
called with the single supported request (115200, 8 data bits, no parity,
1 stop bit, LSB first, normal polarity) returns `RT_EOK`, no assertion fails,
and on return bit 7 (divisor-latch access) of the unit's line-control register
is clear. -/
theorem configure_supported_succeeds (K : RtDefs) (o : Option OpsRef) (rx : Option Nat)
    (c0 : serial_configure) (u : am33xx_uart) (m : Machine) :
    ∃ m', am33xx_configure K (some ⟨o, rx, c0, some u⟩)
        ⟨K.BAUD_RATE_115200, K.DATA_BITS_8, K.STOP_BITS_1, K.PARITY_NONE,
          K.BIT_ORDER_LSB, K.NRZ_NORMAL⟩ m = Result.ok K.RT_EOK m' ∧
      (m'.val (UART_LCR_REG u.base)).testBit 7 = false := by
  refine ⟨_, configure_ok K o rx c0 u _ m rfl rfl, ?_⟩
  rw [val_configured, lcrDlabOff_testBit]
  simp

/-- Evaluation of C1 on `exampleMachine`, whose line-control register holds
`0xFF` (bit 7 set) at the start. -/
theorem configure_supported_succeeds_witness :
    ∃ m', am33xx_configure exampleDefs (some exampleDevice) exampleConfig exampleMachine
        = Result.ok 0 m' ∧
      (m'.val (UART_LCR_REG 0x48022000)).testBit 7 = false :=
  configure_supported_succeeds exampleDefs (some OpsRef.am33xx_uart_ops) (some 1)
    exampleConfig (uart exampleBoard 1) exampleMachine

/-- C2: for every configuration whose `data_bits` is not 8 or whose `baud_rate`
is not 115200, `am33xx_configure` ends in the fatal (assertion) outcome and so
never returns success, whatever the other fields, the device and the initial
register state are. -/
theorem configure_unsupported_is_fatal (K : RtDefs) (serial : Option rt_serial_device)
    (cfg : serial_configure) (m : Machine)
    (h : cfg.data_bits ≠ K.DATA_BITS_8 ∨ cfg.baud_rate ≠ K.BAUD_RATE_115200) :
    (∃ m', am33xx_configure K serial cfg m = Result.fatal m') ∧
      ∀ v m', am33xx_configure K serial cfg m ≠ Result.ok v m' := by
  obtain ⟨mf, hf⟩ := configure_fatal K serial cfg m h
  refine ⟨⟨mf, hf⟩, ?_⟩
  intro v m' hok
  rw [hf] at hok
  exact Result.noConfusion hok

/-- Evaluation of C2 at a request for 9600 baud on `exampleDevice`. -/
theorem configure_unsupported_is_fatal_witness :
    ((8 : Nat) ≠ exampleDefs.DATA_BITS_8 ∨ (9600 : Nat) ≠ exampleDefs.BAUD_RATE_115200) ∧
    ((∃ m', am33xx_configure exampleDefs (some exampleDevice) ⟨9600, 8, 0, 0, 0, 0⟩
        exampleMachine = Result.fatal m') ∧
      ∀ v m', am33xx_configure exampleDefs (some exampleDevice) ⟨9600, 8, 0, 0, 0, 0⟩
        exampleMachine ≠ Result.ok v m') :=
  ⟨by decide,
   configure_unsupported_is_fatal exampleDefs (some exampleDevice) ⟨9600, 8, 0, 0, 0, 0⟩
     exampleMachine (by decide)⟩

/-- C9: in the ordered trace of register writes of one successful
`am33xx_configure` call, the divisor writes (DLL = 26, then DLH = 0) are the
only writes to a register other than the line-control register made while
line-control bit 7 is set: the write just before DLL sets bit 7, the write just
after DLH clears it, and the writes MDR1 = 0, MDR2 = 0 follow with bit 7
clear. -/
theorem configure_divisor_window (K : RtDefs) (o : Option OpsRef) (rx : Option Nat)
    (c0 : serial_configure) (u : am33xx_uart) (cfg : serial_configure) (m : Machine)
    (v : Int) (m' : Machine)
    (h : am33xx_configure K (some ⟨o, rx, c0, some u⟩) cfg m = Result.ok v m') :
    ∃ evs s1 s2 s3 hi lo,
      m'.trace = m.trace ++ evs ∧
      writesOf evs =
        [ (UART_LCR_REG u.base, s1), (UART_LCR_REG u.base, s2), (UART_LCR_REG u.base, s3),
          (UART_LCR_REG u.base, hi),
          (UART_DLL_REG u.base, 26), (UART_DLH_REG u.base, 0),
          (UART_LCR_REG u.base, lo),
          (UART_MDR1_REG u.base, 0), (UART_MDR2_REG u.base, 0) ] ∧
      hi.testBit 7 = true ∧ lo.testBit 7 = false ∧
      ∀ dlab, writesUnderDlab (UART_LCR_REG u.base) dlab (writesOf evs) =
        [ (UART_DLL_REG u.base, 26), (UART_DLH_REG u.base, 0) ] := by
  obtain ⟨h8, hb⟩ := configure_ok_inv K _ cfg m v m' h
  rw [configure_ok K o rx c0 u cfg m h8 hb] at h
  injection h with hv hm
  subst hm
  have hhi := lcrDlabOn_testBit7 K cfg (m.val (UART_LCR_REG u.base))
  have hlo : (lcrDlabOff K cfg (m.val (UART_LCR_REG u.base))).testBit 7 = false := by
    rw [lcrDlabOff_testBit]
    simp
  refine ⟨_, lcrOr3 (m.val (UART_LCR_REG u.base)), lcrStop K cfg (m.val (UART_LCR_REG u.base)),
    lcrParity K cfg (m.val (UART_LCR_REG u.base)), lcrDlabOn K cfg (m.val (UART_LCR_REG u.base)),
    lcrDlabOff K cfg (m.val (UART_LCR_REG u.base)), trace_configured K cfg u.base m, ?_, hhi,
    hlo, ?_⟩
  · simp [writesOf]
  · intro dlab
    simp only [UART_LCR_REG] at hhi hlo
    simp [writesOf, writesUnderDlab, hhi, hlo, UART_LCR_REG, UART_DLL_REG, UART_DLH_REG,
      UART_MDR1_REG, UART_MDR2_REG]

/-- Evaluation of C9 on `exampleMachine` with the supported request. -/
theorem configure_divisor_window_witness :
    am33xx_configure exampleDefs (some exampleDevice) exampleConfig exampleMachine
        = Result.ok 0 (configured exampleDefs exampleConfig 0x48022000 exampleMachine) ∧
    ∃ evs s1 s2 s3 hi lo,
      (configured exampleDefs exampleConfig 0x48022000 exampleMachine).trace
        = exampleMachine.trace ++ evs ∧
      writesOf evs =
        [ (UART_LCR_REG 0x48022000, s1), (UART_LCR_REG 0x48022000, s2),
          (UART_LCR_REG 0x48022000, s3), (UART_LCR_REG 0x48022000, hi),
          (UART_DLL_REG 0x48022000, 26), (UART_DLH_REG 0x48022000, 0),
          (UART_LCR_REG 0x48022000, lo),
          (UART_MDR1_REG 0x48022000, 0), (UART_MDR2_REG 0x48022000, 0) ] ∧
      hi.testBit 7 = true ∧ lo.testBit 7 = false ∧
      ∀ dlab, writesUnderDlab (UART_LCR_REG 0x48022000) dlab (writesOf evs) =
        [ (UART_DLL_REG 0x48022000, 26), (UART_DLH_REG 0x48022000, 0) ] :=
  ⟨rfl,
   configure_divisor_window exampleDefs (some OpsRef.am33xx_uart_ops) (some 1) exampleConfig
     (uart exampleBoard 1) exampleConfig exampleMachine 0
     (configured exampleDefs exampleConfig 0x48022000 exampleMachine) rfl⟩

/-- C10: for every configuration with 8 data bits and the 115200 rate and every
initial line-control value `L`, after `am33xx_configure` the line-control
register has bits 1:0 equal to 3, bit 2 clear if `stop_bits` is one stop bit and
set otherwise, bit 3 clear if `parity` is none and set otherwise, bit 7 clear,
and every other bit equal to the same bit of `L`; the outcome is the same for
every value of `bit_order` and `invert`. -/
theorem configure_line_control_bits (K : RtDefs) (o : Option OpsRef) (rx : Option Nat)
    (c0 : serial_configure) (u : am33xx_uart) (cfg : serial_configure) (m : Machine)
    (h8 : cfg.data_bits = K.DATA_BITS_8) (hb : cfg.baud_rate = K.BAUD_RATE_115200) :
    ∃ m', am33xx_configure K (some ⟨o, rx, c0, some u⟩) cfg m = Result.ok K.RT_EOK m' ∧
      (m'.val (UART_LCR_REG u.base)).testBit 0 = true ∧
      (m'.val (UART_LCR_REG u.base)).testBit 1 = true ∧
      (m'.val (UART_LCR_REG u.base)).testBit 2 = decide (cfg.stop_bits ≠ K.STOP_BITS_1) ∧
      (m'.val (UART_LCR_REG u.base)).testBit 3 = decide (cfg.parity ≠ K.PARITY_NONE) ∧
      (m'.val (UART_LCR_REG u.base)).testBit 7 = false ∧
      (∀ k, k ≠ 0 → k ≠ 1 → k ≠ 2 → k ≠ 3 → k ≠ 7 →
        (m'.val (UART_LCR_REG u.base)).testBit k = (m.val (UART_LCR_REG u.base)).testBit k) ∧
      ∀ bo inv, am33xx_configure K (some ⟨o, rx, c0, some u⟩)
        { cfg with bit_order := bo, invert := inv } m = Result.ok K.RT_EOK m' := by
  refine ⟨_, configure_ok K o rx c0 u cfg m h8 hb, ?_, ?_, ?_, ?_, ?_, ?_, ?_⟩
  · rw [val_configured, lcrDlabOff_testBit]; simp
  · rw [val_configured, lcrDlabOff_testBit]; simp
  · rw [val_configured, lcrDlabOff_testBit]; simp
  · rw [val_configured, lcrDlabOff_testBit]; simp
  · rw [val_configured, lcrDlabOff_testBit]; simp
  · intro k h0 h1 h2 h3 h7
    rw [val_configured, lcrDlabOff_testBit]
    have hlt := testBit_val_lt m (UART_LCR_REG u.base) k
    cases hk : (m.val (UART_LCR_REG u.base)).testBit k
    · simp [h2, h3]
      omega
    · have := hlt hk
      simp [h2, h3, h7, this]
  · intro bo inv
    exact configure_ok K o rx c0 u { cfg with bit_order := bo, invert := inv } m h8 hb

/-- Evaluation of C10 on `exampleMachine` (line control `0xFF` at the start)
with two stop bits and parity requested. -/
theorem configure_line_control_bits_witness :
    ((8 : Nat) = exampleDefs.DATA_BITS_8 ∧ (115200 : Nat) = exampleDefs.BAUD_RATE_115200) ∧
    ∃ m', am33xx_configure exampleDefs (some exampleDevice) ⟨115200, 8, 1, 1, 0, 0⟩
        exampleMachine = Result.ok 0 m' ∧
      (m'.val (UART_LCR_REG 0x48022000)).testBit 0 = true ∧
      (m'.val (UART_LCR_REG 0x48022000)).testBit 1 = true ∧
      (m'.val (UART_LCR_REG 0x48022000)).testBit 2 = true ∧
      (m'.val (UART_LCR_REG 0x48022000)).testBit 3 = true ∧
      (m'.val (UART_LCR_REG 0x48022000)).testBit 7 = false ∧
      (∀ k, k ≠ 0 → k ≠ 1 → k ≠ 2 → k ≠ 3 → k ≠ 7 →
        (m'.val (UART_LCR_REG 0x48022000)).testBit k
          = (exampleMachine.val (UART_LCR_REG 0x48022000)).testBit k) ∧
      ∀ bo inv, am33xx_configure exampleDefs (some exampleDevice)
        ⟨115200, 8, 1, 1, bo, inv⟩ exampleMachine = Result.ok 0 m' :=
  ⟨⟨rfl, rfl⟩,
   configure_line_control_bits exampleDefs (some OpsRef.am33xx_uart_ops) (some 1)
     exampleConfig (uart exampleBoard 1) ⟨115200, 8, 1, 1, 0, 0⟩ exampleMachine rfl rfl⟩

/-! ## Busy-waiting lemmas -/

theorem hwStep_apply (env : (Reg → Nat) → Reg → Nat) (m : Machine) :
    hwStep env m = Result.ok () { m with regs := env m.regs } := rfl

theorem poll_zero (env : (Reg → Nat) → Reg → Nat) (r : Reg) (done : Nat → Bool)
    (m : Machine) :
    poll env r done 0 m =
      if done (m.val r) = true then Result.ok (m.val r) (m.log (Event.read r (m.val r)))
      else Result.timeout := by
  by_cases h : done (m.val r) = true <;>
  simp [poll, bind_apply, Run.bind, readReg_apply, ite_run, h, pure_apply]

theorem poll_succ (env : (Reg → Nat) → Reg → Nat) (r : Reg) (done : Nat → Bool)
    (fuel : Nat) (m : Machine) :
    poll env r done (fuel + 1) m =
      if done (m.val r) = true then Result.ok (m.val r) (m.log (Event.read r (m.val r)))
      else poll env r done fuel
        { (m.log (Event.read r (m.val r))) with regs := env m.regs } := by
  by_cases h : done (m.val r) = true <;>
  simp [poll, bind_apply, Run.bind, readReg_apply, ite_run, h, pure_apply, hwStep_apply,
    regs_log]

/-- What a busy-wait loop that ends has done: some unsuccessful polls, then a
successful one whose value it returns; in between the registers moved as the
hardware moved them, and nothing else changed. -/
theorem poll_ok (env : (Reg → Nat) → Reg → Nat) (r : Reg) (done : Nat → Bool) :
    ∀ (fuel : Nat) (m : Machine) (v : Nat) (m' : Machine),
      poll env r done fuel m = Result.ok v m' →
      ∃ polls, m'.trace = m.trace ++ polls ++ [Event.read r v] ∧ done v = true ∧
        (∀ e ∈ polls, ∃ x, e = Event.read r x ∧ done x = false) ∧
        m'.masked = m.masked ∧ m'.serial = m.serial ∧
        m'.regs = env^[polls.length] m.regs := by
  intro fuel
  induction fuel with
  | zero =>
    intro m v m' h
    rw [poll_zero] at h
    by_cases hd : done (m.val r) = true
    · rw [if_pos hd] at h
      injection h with hv hm
      subst hv
      subst hm
      exact ⟨[], by simp [trace_log], hd, by simp, rfl, rfl, rfl⟩
    · rw [if_neg hd] at h
      exact Result.noConfusion h
  | succ n ih =>
    intro m v m' h
    rw [poll_succ] at h
    by_cases hd : done (m.val r) = true
    · rw [if_pos hd] at h
      injection h with hv hm
      subst hv
      subst hm
      exact ⟨[], by simp [trace_log], hd, by simp, rfl, rfl, rfl⟩
    · rw [if_neg hd] at h
      obtain ⟨polls, ht, hdv, hall, hmask, hser, hregs⟩ := ih _ v m' h
      refine ⟨Event.read r (m.val r) :: polls, ?_, hdv, ?_, hmask, hser, ?_⟩
      · rw [ht]
        simp [Machine.log]
      · intro e he
        rcases List.mem_cons.mp he with he | he
        · exact ⟨m.val r, he, by simpa using hd⟩
        · exact hall e he
      · rw [hregs]
        simp [Machine.log, Function.iterate_succ_apply]

/-- A busy-wait loop ends when the hardware satisfies its test within the
allowed number of polls. -/
theorem poll_total (env : (Reg → Nat) → Reg → Nat) (r : Reg) (done : Nat → Bool) :
    ∀ (fuel : Nat) (m : Machine),
      (∃ k, k ≤ fuel ∧ done (word32 ((env^[k] m.regs) r)) = true) →
      ∃ v m', poll env r done fuel m = Result.ok v m' := by
  intro fuel
  induction fuel with
  | zero =>
    intro m h
    obtain ⟨k, hk, hd⟩ := h
    have hk0 : k = 0 := by omega
    subst hk0
    rw [poll_zero]
    have hd' : done (m.val r) = true := hd
    rw [if_pos hd']
    exact ⟨_, _, rfl⟩
  | succ n ih =>
    intro m h
    rw [poll_succ]
    by_cases hd : done (m.val r) = true
    · rw [if_pos hd]
      exact ⟨_, _, rfl⟩
    · rw [if_neg hd]
      apply ih
      obtain ⟨k, hk, hdk⟩ := h
      cases k with
      | zero => exact absurd hdk hd
      | succ j =>
        refine ⟨j, by omega, ?_⟩
        rw [Function.iterate_succ_apply] at hdk
        exact hdk

/-! ## Transfer primitives: the claims -/

theorem getc_apply (o : Option OpsRef) (rx : Option Nat) (c0 : serial_configure)
    (u : am33xx_uart) (m : Machine) :
    am33xx_getc (some ⟨o, rx, c0, some u⟩) m =
      if m.val (UART_LSR_REG u.base) &&& 0x01 = 0 then
        Result.ok (-1)
          (m.log (Event.read (UART_LSR_REG u.base) (m.val (UART_LSR_REG u.base))))
      else
        Result.ok ((m.val (UART_RHR_REG u.base) &&& 0xff : Nat) : Int)
          ((m.log (Event.read (UART_LSR_REG u.base) (m.val (UART_LSR_REG u.base)))).log
            (Event.read (UART_RHR_REG u.base) (m.val (UART_RHR_REG u.base)))) := by
  rcases Nat.mod_two_eq_zero_or_one (m.val (UART_LSR_REG u.base)) with h | h <;>
  simp [am33xx_getc, bind_apply, Run.bind, pure_apply, ite_run, RT_ASSERT, deref,
    readReg_apply, h, val_log]

theorem getc_repeat_idle (o : Option OpsRef) (rx : Option Nat) (c0 : serial_configure)
    (u : am33xx_uart) :
    ∀ (n : Nat) (m : Machine), m.val (UART_LSR_REG u.base) &&& 0x01 = 0 →
      getc_repeat (some ⟨o, rx, c0, some u⟩) n m =
        Result.ok (List.replicate n (-1))
          { m with trace := m.trace ++ (List.replicate n
              (Event.read (UART_LSR_REG u.base) (m.val (UART_LSR_REG u.base)))) } := by
  intro n
  induction n with
  | zero =>
    intro m _
    simp [getc_repeat, pure_apply]
  | succ k ih =>
    intro m h
    have h1 : (m.log (Event.read (UART_LSR_REG u.base)
        (m.val (UART_LSR_REG u.base)))).val (UART_LSR_REG u.base) &&& 0x01 = 0 := h
    simp only [getc_repeat, bind_apply, Run.bind, getc_apply, if_pos h, ih _ h1, pure_apply]
    simp only [Machine.log, Machine.val, List.replicate_succ, List.append_assoc,
      List.singleton_append]

/-- C3: for every unit and register state, `am33xx_getc` returns -1 when bit 0
of the line-status register is clear and returns the receive holding register
masked with `0xff`, a value in 0..255, when the bit is set; when the bit is
clear the call writes no register and reads only the line-status register (not
the receive holding register), so any number of repeated calls return -1. -/
theorem getc_nonblocking_poll (o : Option OpsRef) (rx : Option Nat) (c0 : serial_configure)
    (u : am33xx_uart) (m : Machine) :
    (am33xx_getc (some ⟨o, rx, c0, some u⟩) m =
      if m.val (UART_LSR_REG u.base) &&& 0x01 = 0 then
        Result.ok (-1)
          { m with trace := m.trace ++
              [Event.read (UART_LSR_REG u.base) (m.val (UART_LSR_REG u.base))] }
      else
        Result.ok ((m.val (UART_RHR_REG u.base) &&& 0xff : Nat) : Int)
          { m with trace := m.trace ++
              [Event.read (UART_LSR_REG u.base) (m.val (UART_LSR_REG u.base)),
               Event.read (UART_RHR_REG u.base) (m.val (UART_RHR_REG u.base))] }) ∧
    m.val (UART_RHR_REG u.base) &&& 0xff ≤ 255 ∧
    (m.val (UART_LSR_REG u.base) &&& 0x01 = 0 →
      ∀ n, getc_repeat (some ⟨o, rx, c0, some u⟩) n m =
        Result.ok (List.replicate n (-1))
          { m with trace := m.trace ++ (List.replicate n
              (Event.read (UART_LSR_REG u.base) (m.val (UART_LSR_REG u.base)))) }) := by
  refine ⟨?_, Nat.and_le_right, fun h n => getc_repeat_idle o rx c0 u n m h⟩
  rw [getc_apply]
  simp [Machine.log]

/-- Evaluation of C3: on `idleMachine` (line status 0) three successive calls
return -1 and read the line-status register three times; on `exampleMachine`
(line status and receive register `0xFF`) a call returns `0xFF`. -/
theorem getc_nonblocking_poll_witness :
    idleMachine.val (UART_LSR_REG 0x48022000) &&& 0x01 = 0 ∧
    getc_repeat (some exampleDevice) 3 idleMachine =
      Result.ok [-1, -1, -1]
        { idleMachine with trace :=
            [Event.read (UART_LSR_REG 0x48022000) 0, Event.read (UART_LSR_REG 0x48022000) 0,
             Event.read (UART_LSR_REG 0x48022000) 0] } ∧
    am33xx_getc (some exampleDevice) exampleMachine =
      Result.ok 255
        { exampleMachine with trace :=
            [Event.read (UART_LSR_REG 0x48022000) 255,
             Event.read (UART_RHR_REG 0x48022000) 255] } :=
  ⟨rfl,
   (getc_nonblocking_poll (some OpsRef.am33xx_uart_ops) (some 1) exampleConfig
      (uart exampleBoard 1) idleMachine).2.2 rfl 3,
   (getc_nonblocking_poll (some OpsRef.am33xx_uart_ops) (some 1) exampleConfig
      (uart exampleBoard 1) exampleMachine).1⟩

theorem putc_apply (env : (Reg → Nat) → Reg → Nat) (fuel : Nat) (o : Option OpsRef)
    (rx : Option Nat) (c0 : serial_configure) (u : am33xx_uart) (c : Nat) (m : Machine) :
    am33xx_putc env fuel (some ⟨o, rx, c0, some u⟩) c m =
      match poll env (UART_LSR_REG u.base) (fun v => v &&& 0x20 != 0) fuel m with
      | Result.ok _ m1 => Result.ok 1 (m1.store (UART_THR_REG u.base) (c % 256))
      | Result.fatal m1 => Result.fatal m1
      | Result.undef => Result.undef
      | Result.timeout => Result.timeout := by
  simp only [am33xx_putc, bind_apply, Run.bind, RT_ASSERT, deref, Option.isSome_some,
    if_true, toChar]
  cases poll env (UART_LSR_REG u.base) (fun v => v &&& 0x20 != 0) fuel m <;>
  simp [writeReg_apply, pure_apply]

theorem word32_byte (c : Nat) : word32 (c % 256) = c % 256 := by
  unfold word32
  apply Nat.mod_eq_of_lt
  have : c % 256 < 256 := Nat.mod_lt _ (by norm_num)
  omega

/-- C4: for every byte `b`, whenever `am33xx_putc(unit, b)` returns, it returns
1, the last line-status value read before the write had bit 5 (`0x20`) set (and
every earlier one had it clear), exactly one write to the transmit holding
register was made, and the value written is `b` truncated to 8 bits; and the
call does return once the hardware shows bit 5 within the allowed polls. -/
theorem putc_waits_then_writes_byte (env : (Reg → Nat) → Reg → Nat) (o : Option OpsRef)
    (rx : Option Nat) (c0 : serial_configure) (u : am33xx_uart) (b : Nat) (m : Machine) :
    (∀ fuel v m', am33xx_putc env fuel (some ⟨o, rx, c0, some u⟩) b m = Result.ok v m' →
      v = 1 ∧ b % 256 < 256 ∧
      ∃ polls last,
        m'.trace = m.trace ++ polls ++
          [Event.read (UART_LSR_REG u.base) last, Event.write (UART_THR_REG u.base) (b % 256)] ∧
        last &&& 0x20 ≠ 0 ∧
        (∀ e ∈ polls, ∃ x, e = Event.read (UART_LSR_REG u.base) x ∧ x &&& 0x20 = 0) ∧
        writesOf (polls ++ [Event.read (UART_LSR_REG u.base) last,
          Event.write (UART_THR_REG u.base) (b % 256)]) = [(UART_THR_REG u.base, b % 256)]) ∧
    (∀ fuel, (∃ k, k ≤ fuel ∧ word32 ((env^[k] m.regs) (UART_LSR_REG u.base)) &&& 0x20 ≠ 0) →
      ∃ m', am33xx_putc env fuel (some ⟨o, rx, c0, some u⟩) b m = Result.ok 1 m') := by
  constructor
  · intro fuel v m' h
    rw [putc_apply] at h
    cases hp : poll env (UART_LSR_REG u.base) (fun v => v &&& 0x20 != 0) fuel m with
    | ok x m1 =>
      rw [hp] at h
      injection h with hv hm
      obtain ⟨polls, ht, hd, hall, _, _, _⟩ := poll_ok env _ _ fuel m x m1 hp
      refine ⟨hv.symm, Nat.mod_lt _ (by norm_num), polls, x, ?_, ?_, ?_, ?_⟩
      · rw [← hm, trace_store, ht, word32_byte]
        simp
      · simpa using hd
      · intro e he
        obtain ⟨y, hy, hdy⟩ := hall e he
        exact ⟨y, hy, by simpa using hdy⟩
      · have hq : writesOf polls = [] := by
          unfold writesOf
          rw [List.filterMap_eq_nil_iff]
          intro e he
          obtain ⟨y, hy, _⟩ := hall e he
          rw [hy]
        simp [writesOf, List.filterMap_append] at hq ⊢
        intro e he
        exact hq e he
    | fatal m1 => rw [hp] at h; exact Result.noConfusion h
    | undef => rw [hp] at h; exact Result.noConfusion h
    | timeout => rw [hp] at h; exact Result.noConfusion h
  · intro fuel hk
    have hk' : ∃ k, k ≤ fuel ∧
        (fun v => v &&& 0x20 != 0) (word32 ((env^[k] m.regs) (UART_LSR_REG u.base))) = true := by
      obtain ⟨k, hle, hne⟩ := hk
      exact ⟨k, hle, by simpa using hne⟩
    obtain ⟨x, m1, hp⟩ :=
      poll_total env (UART_LSR_REG u.base) (fun v => v &&& 0x20 != 0) fuel m hk'
    rw [putc_apply, hp]
    exact ⟨_, rfl⟩

/-- Evaluation of C4: on `idleMachine` (line status 0), with hardware that
raises bit 5 after the first poll, `am33xx_putc` of `0x141` polls twice, writes
`0x41` and returns 1. -/
theorem putc_waits_then_writes_byte_witness :
    (∃ k, k ≤ 3 ∧
      word32 ((exampleEnv^[k] idleMachine.regs) (UART_LSR_REG 0x48022000)) &&& 0x20 ≠ 0) ∧
    (∃ m', am33xx_putc exampleEnv 3 (some exampleDevice) 0x141 idleMachine = Result.ok 1 m') ∧
    ((1 : Int) = 1 ∧ 0x141 % 256 < 256 ∧
      ∃ polls last,
        [Event.read (UART_LSR_REG 0x48022000) 0, Event.read (UART_LSR_REG 0x48022000) 0x20,
          Event.write (UART_THR_REG 0x48022000) 0x41] = idleMachine.trace ++ polls ++
          [Event.read (UART_LSR_REG 0x48022000) last,
            Event.write (UART_THR_REG 0x48022000) (0x141 % 256)] ∧
        last &&& 0x20 ≠ 0 ∧
        (∀ e ∈ polls, ∃ x, e = Event.read (UART_LSR_REG 0x48022000) x ∧ x &&& 0x20 = 0) ∧
        writesOf (polls ++ [Event.read (UART_LSR_REG 0x48022000) last,
          Event.write (UART_THR_REG 0x48022000) (0x141 % 256)])
            = [(UART_THR_REG 0x48022000, 0x141 % 256)]) :=
  ⟨⟨1, by decide, by decide⟩,
   (putc_waits_then_writes_byte exampleEnv (some OpsRef.am33xx_uart_ops) (some 1)
      exampleConfig (uart exampleBoard 1) 0x141 idleMachine).2 3 ⟨1, by decide, by decide⟩,
   (putc_waits_then_writes_byte exampleEnv (some OpsRef.am33xx_uart_ops) (some 1)
      exampleConfig (uart exampleBoard 1) 0x141 idleMachine).1 3 1
      { idleMachine with
          regs := Function.update (exampleEnv idleMachine.regs) (UART_THR_REG 0x48022000) 0x41
          trace := [Event.read (UART_LSR_REG 0x48022000) 0,
            Event.read (UART_LSR_REG 0x48022000) 0x20,
            Event.write (UART_THR_REG 0x48022000) 0x41] } rfl⟩

/-! ## Control: the claim -/

theorem control_clr_apply (K : RtDefs) (o : Option OpsRef) (rx : Option Nat)
    (c0 : serial_configure) (u : am33xx_uart) (arg : Nat) (m : Machine) :
    am33xx_control K (some ⟨o, rx, c0, some u⟩) K.RT_DEVICE_CTRL_CLR_INT arg m =
      Result.ok K.RT_EOK
        { m with masked := Function.update m.masked u.irq true,
                 trace := m.trace ++ [Event.interrupt_mask u.irq] } := by
  simp [am33xx_control, bind_apply, Run.bind, pure_apply, ite_run, RT_ASSERT, deref,
    rt_hw_interrupt_mask]

theorem control_set_apply (K : RtDefs) (o : Option OpsRef) (rx : Option Nat)
    (c0 : serial_configure) (u : am33xx_uart) (arg : Nat) (m : Machine)
    (hK : K.RT_DEVICE_CTRL_SET_INT ≠ K.RT_DEVICE_CTRL_CLR_INT) :
    am33xx_control K (some ⟨o, rx, c0, some u⟩) K.RT_DEVICE_CTRL_SET_INT arg m =
      Result.ok K.RT_EOK
        { m with masked := Function.update m.masked u.irq false,
                 trace := m.trace ++ [Event.interrupt_umask u.irq] } := by
  simp [am33xx_control, bind_apply, Run.bind, pure_apply, ite_run, RT_ASSERT, deref,
    rt_hw_interrupt_umask, hK]

/-- C5 as stated fails: on `exampleMachine` line 73 of unit 1 is unmasked; after
`RT_DEVICE_CTRL_SET_INT` and then `RT_DEVICE_CTRL_CLR_INT` on that unit the line
is masked, so the mask state differs from the one before the two calls. -/
theorem control_round_trip_counterexample :
    ∃ m1 m2,
      am33xx_control exampleDefs (some exampleDevice) exampleDefs.RT_DEVICE_CTRL_SET_INT 0
        exampleMachine = Result.ok exampleDefs.RT_EOK m1 ∧
      am33xx_control exampleDefs (some exampleDevice) exampleDefs.RT_DEVICE_CTRL_CLR_INT 0
        m1 = Result.ok exampleDefs.RT_EOK m2 ∧
      exampleMachine.masked 73 = false ∧ m2.masked 73 = true ∧
      m2.masked ≠ exampleMachine.masked := by
  refine ⟨_, _, control_set_apply exampleDefs _ _ _ _ 0 exampleMachine (by decide),
    control_clr_apply exampleDefs _ _ _ _ 0 _, rfl, rfl, ?_⟩
  intro h
  have h73 := congrFun h 73
  exact Bool.noConfusion h73

/-- C5, amended: for every unit and every initial mask state, `am33xx_control`
with `RT_DEVICE_CTRL_SET_INT` and then with `RT_DEVICE_CTRL_CLR_INT` on the same
unit returns `RT_EOK` twice and leaves the unit's line masked and every other
line as it was; so the mask state equals the state before the two calls when
the unit's line was masked before them.  No register is changed. -/
theorem control_unmask_then_mask (K : RtDefs) (o : Option OpsRef) (rx : Option Nat)
    (c0 : serial_configure) (u : am33xx_uart) (a1 a2 : Nat) (m : Machine)
    (hK : K.RT_DEVICE_CTRL_SET_INT ≠ K.RT_DEVICE_CTRL_CLR_INT) :
    ∃ m1 m2,
      am33xx_control K (some ⟨o, rx, c0, some u⟩) K.RT_DEVICE_CTRL_SET_INT a1 m
        = Result.ok K.RT_EOK m1 ∧
      am33xx_control K (some ⟨o, rx, c0, some u⟩) K.RT_DEVICE_CTRL_CLR_INT a2 m1
        = Result.ok K.RT_EOK m2 ∧
      m2.masked = Function.update m.masked u.irq true ∧
      (m.masked u.irq = true → m2.masked = m.masked) ∧
      m2.regs = m.regs ∧
      m2.trace = m.trace ++ [Event.interrupt_umask u.irq, Event.interrupt_mask u.irq] := by
  refine ⟨_, _, control_set_apply K o rx c0 u a1 m hK, control_clr_apply K o rx c0 u a2 _,
    ?_, ?_, rfl, ?_⟩
  · simp
  · intro hm
    simp only [Function.update_idem]
    rw [← hm]
    exact Function.update_eq_self _ _
  · simp

/-- Evaluation of amended C5 on `idleMachine`, where every line is masked. -/
theorem control_unmask_then_mask_witness :
    exampleDefs.RT_DEVICE_CTRL_SET_INT ≠ exampleDefs.RT_DEVICE_CTRL_CLR_INT ∧
    ∃ m1 m2,
      am33xx_control exampleDefs (some exampleDevice) exampleDefs.RT_DEVICE_CTRL_SET_INT 0
        idleMachine = Result.ok exampleDefs.RT_EOK m1 ∧
      am33xx_control exampleDefs (some exampleDevice) exampleDefs.RT_DEVICE_CTRL_CLR_INT 0 m1
        = Result.ok exampleDefs.RT_EOK m2 ∧
      m2.masked = Function.update idleMachine.masked 73 true ∧
      (idleMachine.masked 73 = true → m2.masked = idleMachine.masked) ∧
      m2.regs = idleMachine.regs ∧
      m2.trace = idleMachine.trace ++ [Event.interrupt_umask 73, Event.interrupt_mask 73] :=
  ⟨by decide,
   control_unmask_then_mask exampleDefs (some OpsRef.am33xx_uart_ops) (some 1) exampleConfig
     (uart exampleBoard 1) 0 0 idleMachine (by decide)⟩

/-! ## Interrupt service routine: the claim -/

theorem testBit_lit12 (k : Nat) : Nat.testBit 12 k = (decide (2 = k) || decide (3 = k)) := by
  have h : (12 : Nat) = 4 ||| 8 := by decide
  rw [h, Nat.testBit_or, testBit_lit4, testBit_lit8]

theorem and4_ne_zero (x : Nat) : x &&& 4 ≠ 0 ↔ x.testBit 2 = true := by
  have h := Nat.and_two_pow x 2
  have h4 : (2 : Nat) ^ 2 = 4 := by norm_num
  rw [h4] at h
  rw [h]
  cases x.testBit 2 <;> simp

theorem and12_ne_zero (x : Nat) :
    x &&& 12 ≠ 0 ↔ (x.testBit 2 = true ∨ x.testBit 3 = true) := by
  constructor
  · intro h
    obtain ⟨i, hi⟩ := Nat.ne_zero_implies_bit_true h
    rw [Nat.testBit_and, testBit_lit12] at hi
    simp only [Bool.and_eq_true, Bool.or_eq_true, decide_eq_true_eq] at hi
    rcases hi with ⟨hx, h2 | h3⟩
    · left; rw [h2]; exact hx
    · right; rw [h3]; exact hx
  · intro h hz
    rcases h with h | h
    · have := Nat.testBit_and x 12 2
      rw [hz, testBit_lit12, h] at this
      simp at this
    · have := Nat.testBit_and x 12 3
      rw [hz, testBit_lit12, h] at this
      simp at this

theorem isr_apply (irqno : Int) (o : Option OpsRef) (rx : Option Nat)
    (c0 : serial_configure) (u : am33xx_uart) (m : Machine) :
    am33xx_uart_isr irqno (some ⟨o, rx, c0, some u⟩) m =
      Result.ok ()
        { m with trace := m.trace ++
            Event.read (UART_IIR_REG u.base) (m.val (UART_IIR_REG u.base)) ::
              (if m.val (UART_IIR_REG u.base) &&& 0x04 ≠ 0 ∨
                  m.val (UART_IIR_REG u.base) &&& 0x0C ≠ 0
               then [Event.serial_isr ⟨o, rx, c0, some u⟩] else []) } := by
  by_cases h : m.val (UART_IIR_REG u.base) &&& 0x04 ≠ 0 ∨
                  m.val (UART_IIR_REG u.base) &&& 0x0C ≠ 0
  · rw [if_pos h]
    simp only [am33xx_uart_isr, bind_apply, Run.bind, deref, readReg_apply]
    have h' : m.val (UART_IIR_REG u.base) &&& (0x02 <<< 1) ≠ 0 ∨
        m.val (UART_IIR_REG u.base) &&& (0x6 <<< 1) ≠ 0 := h
    rw [ite_run, if_pos h']
    simp [rt_hw_serial_isr, emit, Machine.log]
  · rw [if_neg h]
    simp only [am33xx_uart_isr, bind_apply, Run.bind, deref, readReg_apply]
    have h' : ¬ (m.val (UART_IIR_REG u.base) &&& (0x02 <<< 1) ≠ 0 ∨
        m.val (UART_IIR_REG u.base) &&& (0x6 <<< 1) ≠ 0) := h
    rw [ite_run, if_neg h']
    simp [pure_apply, Machine.log]

/-- C6: for every value `iir` read from the interrupt-identification register,
`am33xx_uart_isr` calls the receive pump `rt_hw_serial_isr` exactly once when
`(iir & 0x04) != 0` or `(iir & 0x0C) != 0`, which is when bit 2 or bit 3 of
`iir` is set (the first test is subsumed by the second), and otherwise calls
nothing; in both cases no register, mask bit or device record changes.  The
transmit-empty cause (`iir = 0x02`) and the modem-status cause (`iir = 0x00`)
do not reach the pump. -/
theorem isr_forwards_receive_causes_only (irqno : Int) (o : Option OpsRef)
    (rx : Option Nat) (c0 : serial_configure) (u : am33xx_uart) (m : Machine) :
    am33xx_uart_isr irqno (some ⟨o, rx, c0, some u⟩) m =
      Result.ok ()
        { m with trace := m.trace ++
            Event.read (UART_IIR_REG u.base) (m.val (UART_IIR_REG u.base)) ::
              (if m.val (UART_IIR_REG u.base) &&& 0x04 ≠ 0 ∨
                  m.val (UART_IIR_REG u.base) &&& 0x0C ≠ 0
               then [Event.serial_isr ⟨o, rx, c0, some u⟩] else []) } ∧
    ((m.val (UART_IIR_REG u.base) &&& 0x04 ≠ 0 ∨ m.val (UART_IIR_REG u.base) &&& 0x0C ≠ 0) ↔
      ((m.val (UART_IIR_REG u.base)).testBit 2 = true ∨
        (m.val (UART_IIR_REG u.base)).testBit 3 = true)) ∧
    ((m.val (UART_IIR_REG u.base) &&& 0x04 ≠ 0 ∨ m.val (UART_IIR_REG u.base) &&& 0x0C ≠ 0) ↔
      m.val (UART_IIR_REG u.base) &&& 0x0C ≠ 0) ∧
    ((m.val (UART_IIR_REG u.base) = 0x02 ∨ m.val (UART_IIR_REG u.base) = 0x00) →
      am33xx_uart_isr irqno (some ⟨o, rx, c0, some u⟩) m =
        Result.ok ()
          { m with trace := m.trace ++
              [Event.read (UART_IIR_REG u.base) (m.val (UART_IIR_REG u.base))] }) := by
  refine ⟨isr_apply irqno o rx c0 u m, ?_, ?_, ?_⟩
  · rw [and4_ne_zero, and12_ne_zero]
    tauto
  · rw [and4_ne_zero, and12_ne_zero]
    tauto
  · intro h
    rw [isr_apply]
    rcases h with h | h
    · rw [h]
      simp
      decide
    · rw [h]
      simp

/-- Evaluation of C6: with `0x02` (transmit empty) in the identification
register the routine only reads that register; with `0x0C` (receive time-out)
and with `0x04` (receive data) it calls the pump once. -/
theorem isr_forwards_receive_causes_only_witness :
    am33xx_uart_isr 73 (some exampleDevice)
        { idleMachine with regs := fun _ => 0x02 } =
      Result.ok ()
        { idleMachine with
            regs := fun _ => 0x02
            trace := [Event.read (UART_IIR_REG 0x48022000) 0x02] } ∧
    am33xx_uart_isr 73 (some exampleDevice)
        { idleMachine with regs := fun _ => 0x0C } =
      Result.ok ()
        { idleMachine with
            regs := fun _ => 0x0C
            trace := [Event.read (UART_IIR_REG 0x48022000) 0x0C,
              Event.serial_isr exampleDevice] } ∧
    am33xx_uart_isr 73 (some exampleDevice)
        { idleMachine with regs := fun _ => 0x04 } =
      Result.ok ()
        { idleMachine with
            regs := fun _ => 0x04
            trace := [Event.read (UART_IIR_REG 0x48022000) 0x04,
              Event.serial_isr exampleDevice] } :=
  ⟨(isr_forwards_receive_causes_only 73 (some OpsRef.am33xx_uart_ops) (some 1) exampleConfig
      (uart exampleBoard 1) { idleMachine with regs := fun _ => 0x02 }).2.2.2 (Or.inl rfl),
   (isr_forwards_receive_causes_only 73 (some OpsRef.am33xx_uart_ops) (some 1) exampleConfig
      (uart exampleBoard 1) { idleMachine with regs := fun _ => 0x0C }).1,
   (isr_forwards_receive_causes_only 73 (some OpsRef.am33xx_uart_ops) (some 1) exampleConfig
      (uart exampleBoard 1) { idleMachine with regs := fun _ => 0x04 }).1⟩

/-! ## Boot sequence: lemmas -/

theorem bind_ok_inv {α β : Type} {x : Run α} {f : α → Run β} {m : Machine} {v : β}
    {m' : Machine} (h : (x >>= f) m = Result.ok v m') :
    ∃ a m1, x m = Result.ok a m1 ∧ f a m1 = Result.ok v m' := by
  rw [bind_apply] at h
  unfold Run.bind at h
  cases hx : x m with
  | ok a m1 =>
    rw [hx] at h
    exact ⟨a, m1, rfl, h⟩
  | fatal m1 => rw [hx] at h; exact Result.noConfusion h
  | undef => rw [hx] at h; exact Result.noConfusion h
  | timeout => rw [hx] at h; exact Result.noConfusion h

theorem bind_ok {α β : Type} {x : Run α} {f : α → Run β} {m : Machine} {a : α}
    {m1 : Machine} (h : x m = Result.ok a m1) : (x >>= f) m = f a m1 := by
  rw [bind_apply]
  unfold Run.bind
  rw [h]

theorem serial_init_unit_apply (K : RtDefs) (B : Board) (i : Nat) (m : Machine) :
    serial_init_unit K B i (unitName i) m = Result.ok () (unitDone K B m i) := by
  simp [serial_init_unit, unitDone, unitSteps, unitRegistration, unitRecord, unitFlags,
    defaultConfig, bind_apply, Run.bind, setSerial, writeReg_apply, rt_hw_interrupt_install,
    rt_hw_interrupt_control, rt_hw_interrupt_mask, rt_hw_serial_register, emit, Machine.log,
    Machine.store, word32]

theorem ifdef_apply (c : Bool) (x : Run Unit) (m : Machine) :
    ifdef c x m = if c = true then x m else Result.ok () m := by
  cases c <;> rfl

/-- One optional unit block. -/
theorem unit_block_apply (K : RtDefs) (B : Board) (c : Bool) (i : Nat) (name : String)
    (hn : name = unitName i) (m : Machine) :
    ifdef c (serial_init_unit K B i name) m
      = Result.ok () (if c = true then unitDone K B m i else m) := by
  subst hn
  cases c
  · simp [ifdef_apply]
  · simp [ifdef_apply, serial_init_unit_apply]

theorem init_units_apply (K : RtDefs) (C : BuildConfig) (B : Board) (m : Machine) :
    (do
      ifdef C.RT_USING_UART0 (serial_init_unit K B 0 "uart0")
      ifdef C.RT_USING_UART1 (serial_init_unit K B 1 "uart1")
      ifdef C.RT_USING_UART2 (serial_init_unit K B 2 "uart2")
      ifdef C.RT_USING_UART3 (serial_init_unit K B 3 "uart3")
      ifdef C.RT_USING_UART4 (serial_init_unit K B 4 "uart4")
      ifdef C.RT_USING_UART5 (serial_init_unit K B 5 "uart5")
      return (0 : Int) : Run Int) m = Result.ok 0 (unitsDone K C B m) := by
  simp only [bind_apply, Run.bind, unit_block_apply K B _ 0 "uart0" rfl,
    unit_block_apply K B _ 1 "uart1" rfl, unit_block_apply K B _ 2 "uart2" rfl,
    unit_block_apply K B _ 3 "uart3" rfl, unit_block_apply K B _ 4 "uart4" rfl,
    unit_block_apply K B _ 5 "uart5" rfl, pure_apply]
  obtain ⟨u0, u1, u2, u3, u4, u5⟩ := C
  cases u0 <;> cases u1 <;> cases u2 <;> cases u3 <;> cases u4 <;> cases u5 <;> rfl

theorem init_ok_inv (K : RtDefs) (C : BuildConfig) (B : Board)
    (env : (Reg → Nat) → Reg → Nat) (fuel : Nat) (m : Machine) (v : Int) (m' : Machine)
    (h : rt_hw_serial_init K C B env fuel m = Result.ok v m') :
    ∃ m1 m2 m3, poweron_per_domain B env fuel m = Result.ok () m1 ∧
      start_uart_clk C B env fuel m1 = Result.ok () m2 ∧
      config_pinmux C B m2 = Result.ok () m3 ∧ v = 0 ∧ m' = unitsDone K C B m3 := by
  unfold rt_hw_serial_init at h
  obtain ⟨_, m1, h1, h⟩ := bind_ok_inv h
  obtain ⟨_, m2, h2, h⟩ := bind_ok_inv h
  obtain ⟨_, m3, h3, h⟩ := bind_ok_inv h
  rw [init_units_apply] at h
  injection h with hv hm
  exact ⟨m1, m2, m3, h1, h2, h3, hv.symm, hm.symm⟩

theorem init_ok_of (K : RtDefs) (C : BuildConfig) (B : Board)
    (env : (Reg → Nat) → Reg → Nat) (fuel : Nat) (m m1 m2 m3 : Machine)
    (h1 : poweron_per_domain B env fuel m = Result.ok () m1)
    (h2 : start_uart_clk C B env fuel m1 = Result.ok () m2)
    (h3 : config_pinmux C B m2 = Result.ok () m3) :
    rt_hw_serial_init K C B env fuel m = Result.ok 0 (unitsDone K C B m3) := by
  unfold rt_hw_serial_init
  rw [bind_ok h1, bind_ok h2, bind_ok h3]
  exact init_units_apply K C B m3

/-! ### The unit blocks -/

theorem unitSteps_unitDone (K : RtDefs) (B : Board) (m : Machine) (j i : Nat) :
    unitSteps K B (unitDone K B m j) i = unitSteps K B m i := by
  have : ((unitDone K B m j).serial i).user_data = (m.serial i).user_data := by
    unfold unitDone
    by_cases hij : i = j
    · subst hij; simp [unitRecord]
    · simp [Function.update, hij]
  simp [unitSteps, unitRegistration, unitRecord, this]

theorem foldl_unitDone_trace (K : RtDefs) (B : Board) (l : List Nat) :
    ∀ m : Machine, (l.foldl (unitDone K B) m).trace = m.trace ++ l.flatMap (unitSteps K B m) := by
  induction l with
  | nil => intro m; simp
  | cons i l ih =>
    intro m
    have hf : unitSteps K B (unitDone K B m i) = unitSteps K B m :=
      funext (unitSteps_unitDone K B m i)
    rw [List.foldl_cons, ih, hf, List.flatMap_cons]
    simp [unitDone, List.append_assoc]

theorem foldl_unitDone_masked (K : RtDefs) (B : Board) (l : List Nat) :
    ∀ (m : Machine) (x : Nat),
      (l.foldl (unitDone K B) m).masked x = (m.masked x || l.any (fun i => (uart B i).irq == x)) := by
  induction l with
  | nil => intro m x; simp
  | cons i l ih =>
    intro m x
    rw [List.foldl_cons, ih]
    by_cases hx : (uart B i).irq = x
    · simp [unitDone, hx]
    · have hx' : ¬ x = (uart B i).irq := fun h => hx h.symm
      have hb : ((uart B i).irq == x) = false := by simpa using hx
      simp [unitDone, Function.update, hx', hb]


theorem stepsOf_append (a b : List Event) : stepsOf (a ++ b) = stepsOf a ++ stepsOf b := by
  simp [stepsOf]

theorem Quiet.trans {m m1 m2 : Machine} (h1 : Quiet m m1) (h2 : Quiet m1 m2) : Quiet m m2 := by
  obtain ⟨e1, t1, s1, k1, r1⟩ := h1
  obtain ⟨e2, t2, s2, k2, r2⟩ := h2
  refine ⟨e1 ++ e2, ?_, ?_, ?_, ?_⟩
  · rw [t2, t1, List.append_assoc]
  · rw [stepsOf_append, s1, s2]; rfl
  · rw [k2, k1]
  · rw [r2, r1]

theorem notUart_prcm (b : Nat) (p : PrcmReg) : NotUart (Reg.prcm b p) := fun _ => rfl

theorem poll_quiet (env : (Reg → Nat) → Reg → Nat) (r : Reg) (done : Nat → Bool)
    (fuel : Nat) (m : Machine) (v : Nat) (m' : Machine)
    (h : poll env r done fuel m = Result.ok v m') : Quiet m m' := by
  obtain ⟨polls, ht, _, hall, hmask, hser, _⟩ := poll_ok env r done fuel m v m' h
  refine ⟨polls ++ [Event.read r v], by rw [ht, List.append_assoc], ?_, hmask, hser⟩
  unfold stepsOf
  rw [List.filter_eq_nil_iff]
  intro e he
  rcases List.mem_append.mp he with he | he
  · obtain ⟨x, hx, _⟩ := hall e he
    rw [hx]; simp [Event.isStep]
  · rw [List.mem_singleton.mp he]; simp [Event.isStep]

theorem orReg_quiet (r : Reg) (hr : NotUart r) (x : Nat) (m : Machine) (v : Unit)
    (m' : Machine) (h : orReg r x m = Result.ok v m') :
    m'.trace = m.trace ++ [Event.read r (m.val r), Event.write r (word32 (m.val r ||| x))] ∧
    Quiet m m' := by
  rw [orReg_apply] at h
  injection h with _ hm
  subst hm
  refine ⟨by simp [trace_store, trace_log], ?_⟩
  refine ⟨[Event.read r (m.val r), Event.write r (word32 (m.val r ||| x))],
    by simp [trace_store, trace_log], ?_, rfl, rfl⟩
  unfold stepsOf
  rw [List.filter_eq_nil_iff]
  intro e he
  rcases List.mem_cons.mp he with he | he
  · rw [he]; simp [Event.isStep]
  · rw [List.mem_singleton.mp he, hr _]; simp

theorem poweron_quiet (B : Board) (env : (Reg → Nat) → Reg → Nat) (fuel : Nat)
    (m : Machine) (v : Unit) (m' : Machine)
    (h : poweron_per_domain B env fuel m = Result.ok v m') : Quiet m m' := by
  unfold poweron_per_domain at h
  obtain ⟨prm, m1, h1, h⟩ := bind_ok_inv h
  have q1 := poll_quiet _ _ _ _ _ _ _ h1
  by_cases hc : prm &&& 0x03 = PRM_PER_POWSTATEOFF
  · have hc' : prm &&& 0x03 = PRM_PER_PERMEMSTATEOFF := hc
    simp only [if_pos hc, if_pos hc'] at h
    obtain ⟨_, m2, h2, h⟩ := bind_ok_inv h
    obtain ⟨_, m3, h3, h⟩ := bind_ok_inv h
    obtain ⟨_, m4, h4, h⟩ := bind_ok_inv h
    rw [pure_apply] at h
    injection h with _ hm
    subst hm
    exact q1.trans (((orReg_quiet _ (notUart_prcm _ _) _ _ _ _ h2).2.trans
      (orReg_quiet _ (notUart_prcm _ _) _ _ _ _ h3).2).trans (poll_quiet _ _ _ _ _ _ _ h4))
  · have hc' : ¬ prm &&& 0x03 = PRM_PER_PERMEMSTATEOFF := hc
    simp only [if_neg hc, if_neg hc'] at h
    obtain ⟨_, m2, h2, h⟩ := bind_ok_inv h
    obtain ⟨_, m3, h3, h⟩ := bind_ok_inv h
    obtain ⟨_, m4, h4, h⟩ := bind_ok_inv h
    rw [pure_apply] at h2 h3 h
    injection h2 with _ hm2
    injection h3 with _ hm3
    injection h with _ hm
    subst hm2
    subst hm3
    subst hm
    exact q1.trans (poll_quiet _ _ _ _ _ _ _ h4)

theorem clk_block_quiet (env : (Reg → Nat) → Reg → Nat) (fuel : Nat) (c : Bool) (r : Reg)
    (hr : NotUart r) (m : Machine) (v : Unit) (m' : Machine)
    (h : ifdef c (uart_clk_enable env fuel r) m = Result.ok v m') :
    ∃ evs, m'.trace = m.trace ++ evs ∧ stepsOf evs = [] ∧ m'.masked = m.masked ∧
      m'.serial = m.serial ∧
      (c = true → ∃ old, Event.write r (word32 (old ||| 0x2)) ∈ evs) := by
  cases c
  · rw [ifdef_apply] at h
    simp only [Bool.false_eq_true, if_false] at h
    injection h with _ hm
    subst hm
    exact ⟨[], by simp, rfl, rfl, rfl, fun hc => Bool.noConfusion hc⟩
  · rw [ifdef_apply] at h
    simp only [if_true] at h
    unfold uart_clk_enable at h
    obtain ⟨_, m1, h1, h⟩ := bind_ok_inv h
    obtain ⟨_, m2, h2, h⟩ := bind_ok_inv h
    rw [pure_apply] at h
    injection h with _ hm
    subst hm
    obtain ⟨t1, q1⟩ := orReg_quiet r hr _ _ _ _ h1
    obtain ⟨e2, t2, s2, k2, r2⟩ := poll_quiet _ _ _ _ _ _ _ h2
    obtain ⟨e1, t1', s1, k1, r1⟩ := q1
    have he1 : e1 = [Event.read r (m.val r), Event.write r (word32 (m.val r ||| 0x2))] :=
      List.append_cancel_left (t1'.symm.trans t1)
    refine ⟨e1 ++ e2, by rw [t2, t1', List.append_assoc], by rw [stepsOf_append, s1, s2]; rfl,
      by rw [k2, k1], by rw [r2, r1], fun _ => ⟨m.val r, ?_⟩⟩
    rw [he1]
    simp

theorem enabled_cases (C : BuildConfig) (i : Nat) (h : C.enabled i = true) :
    (i = 0 ∧ C.RT_USING_UART0 = true) ∨ (i = 1 ∧ C.RT_USING_UART1 = true) ∨
    (i = 2 ∧ C.RT_USING_UART2 = true) ∨ (i = 3 ∧ C.RT_USING_UART3 = true) ∨
    (i = 4 ∧ C.RT_USING_UART4 = true) ∨ (i = 5 ∧ C.RT_USING_UART5 = true) := by
  unfold BuildConfig.enabled at h
  split at h
  · exact Or.inl ⟨rfl, h⟩
  · exact Or.inr (Or.inl ⟨rfl, h⟩)
  · exact Or.inr (Or.inr (Or.inl ⟨rfl, h⟩))
  · exact Or.inr (Or.inr (Or.inr (Or.inl ⟨rfl, h⟩)))
  · exact Or.inr (Or.inr (Or.inr (Or.inr (Or.inl ⟨rfl, h⟩))))
  · exact Or.inr (Or.inr (Or.inr (Or.inr (Or.inr ⟨rfl, h⟩))))
  · exact Bool.noConfusion h

theorem start_uart_clk_quiet (C : BuildConfig) (B : Board) (env : (Reg → Nat) → Reg → Nat)
    (fuel : Nat) (m : Machine) (v : Unit) (m' : Machine)
    (h : start_uart_clk C B env fuel m = Result.ok v m') :
    ∃ evs, m'.trace = m.trace ++ evs ∧ stepsOf evs = [] ∧ m'.masked = m.masked ∧
      m'.serial = m.serial ∧
      ∀ i r, C.enabled i = true → clkctrlOf B i = some r →
        ∃ old, Event.write r (word32 (old ||| 0x2)) ∈ evs := by
  unfold start_uart_clk at h
  obtain ⟨_, ma, ha, h⟩ := bind_ok_inv h
  obtain ⟨_, mb, hb, h⟩ := bind_ok_inv h
  obtain ⟨_, m1, h1, h⟩ := bind_ok_inv h
  obtain ⟨_, m2, h2, h⟩ := bind_ok_inv h
  obtain ⟨_, m3, h3, h⟩ := bind_ok_inv h
  obtain ⟨_, m4, h4, h⟩ := bind_ok_inv h
  obtain ⟨_, m5, h5, h⟩ := bind_ok_inv h
  obtain ⟨_, m6, h6, h⟩ := bind_ok_inv h
  rw [pure_apply] at h
  injection h with _ hm
  subst hm
  obtain ⟨ea, ta, sa, ka, ra⟩ := (orReg_quiet _ (notUart_prcm _ _) _ _ _ _ ha).2
  obtain ⟨eb, tb, sb, kb, rb⟩ := poll_quiet _ _ _ _ _ _ _ hb
  obtain ⟨e1, t1, s1, k1, r1, w1⟩ := clk_block_quiet _ _ _ _ (notUart_prcm _ _) _ _ _ h1
  obtain ⟨e2, t2, s2, k2, r2, w2⟩ := clk_block_quiet _ _ _ _ (notUart_prcm _ _) _ _ _ h2
  obtain ⟨e3, t3, s3, k3, r3, w3⟩ := clk_block_quiet _ _ _ _ (notUart_prcm _ _) _ _ _ h3
  obtain ⟨e4, t4, s4, k4, r4, w4⟩ := clk_block_quiet _ _ _ _ (notUart_prcm _ _) _ _ _ h4
  obtain ⟨e5, t5, s5, k5, r5, w5⟩ := clk_block_quiet _ _ _ _ (notUart_prcm _ _) _ _ _ h5
  obtain ⟨e6, t6, s6, k6, r6⟩ := poll_quiet _ _ _ _ _ _ _ h6
  refine ⟨ea ++ eb ++ e1 ++ e2 ++ e3 ++ e4 ++ e5 ++ e6, ?_, ?_, ?_, ?_, ?_⟩
  · rw [t6, t5, t4, t3, t2, t1, tb, ta]
    simp only [List.append_assoc]
  · simp only [stepsOf_append, sa, sb, s1, s2, s3, s4, s5, s6, List.append_nil]
  · rw [k6, k5, k4, k3, k2, k1, kb, ka]
  · rw [r6, r5, r4, r3, r2, r1, rb, ra]
  · intro i r hi hr
    rcases enabled_cases C i hi with ⟨rfl, hu⟩ | ⟨rfl, hu⟩ | ⟨rfl, hu⟩ | ⟨rfl, hu⟩ |
      ⟨rfl, hu⟩ | ⟨rfl, hu⟩
    · exact Option.noConfusion hr
    · obtain ⟨old, ho⟩ := w1 hu
      injection hr with hr
      subst hr
      exact ⟨old, List.mem_append_left _ (List.mem_append_left _ (List.mem_append_left _ (List.mem_append_left _ (List.mem_append_left _ (List.mem_append_right _ ho)))))⟩
    · obtain ⟨old, ho⟩ := w2 hu
      injection hr with hr
      subst hr
      exact ⟨old, List.mem_append_left _ (List.mem_append_left _ (List.mem_append_left _ (List.mem_append_left _ (List.mem_append_right _ ho))))⟩
    · obtain ⟨old, ho⟩ := w3 hu
      injection hr with hr
      subst hr
      exact ⟨old, List.mem_append_left _ (List.mem_append_left _ (List.mem_append_left _ (List.mem_append_right _ ho)))⟩
    · obtain ⟨old, ho⟩ := w4 hu
      injection hr with hr
      subst hr
      exact ⟨old, List.mem_append_left _ (List.mem_append_left _ (List.mem_append_right _ ho))⟩
    · obtain ⟨old, ho⟩ := w5 hu
      injection hr with hr
      subst hr
      exact ⟨old, List.mem_append_left _ (List.mem_append_right _ ho)⟩


theorem padWrites_quiet (B : Board) (i : Nat) : stepsOf (padWrites B i) = [] := by
  unfold padWrites
  split <;> simp [stepsOf, REG32, Event.isStep]

theorem stepsOf_flatMap_padWrites (B : Board) (l : List Nat) :
    stepsOf (l.flatMap (padWrites B)) = [] := by
  induction l with
  | nil => rfl
  | cons i l ih => rw [List.flatMap_cons, stepsOf_append, padWrites_quiet, ih]; rfl

theorem config_pinmux_apply (C : BuildConfig) (B : Board) (m : Machine) :
    ∃ m', config_pinmux C B m = Result.ok () m' ∧
      m'.trace = m.trace ++ (enabledUnits C).flatMap (padWrites B) ∧
      m'.masked = m.masked ∧ m'.serial = m.serial := by
  obtain ⟨u0, u1, u2, u3, u4, u5⟩ := C
  cases u0 <;> cases u1 <;> cases u2 <;> cases u3 <;> cases u4 <;> cases u5 <;>
  exact ⟨_, rfl, by
    simp [Machine.store, enabledUnits, BuildConfig.enabled, List.range, List.range.loop,
      padWrites, word32], rfl, rfl⟩


/-! ### The boot sequence ends -/

theorem poll_answers (env : (Reg → Nat) → Reg → Nat) (n : Nat) (r : Reg)
    (done : Nat → Bool) (hans : AnswersWithin env n r done) (m : Machine) :
    ∃ v m', poll env r done n m = Result.ok v m' :=
  poll_total env r done n m (hans m.regs)

theorem poweron_total (B : Board) (env : (Reg → Nat) → Reg → Nat) (n : Nat)
    (hans : AnswersWithin env n (PRM_PER_PWRSTST_REG B.AM33XX_PRCM_REGS)
      (fun v => v &&& PRM_PER_INTRANSLATION == 0)) (m : Machine) :
    ∃ m', poweron_per_domain B env n m = Result.ok () m' := by
  unfold poweron_per_domain
  obtain ⟨prm, m1, h1⟩ := poll_answers env n _ _ hans m
  rw [bind_ok h1]
  by_cases hc : prm &&& 0x03 = PRM_PER_POWSTATEOFF
  · have hc' : prm &&& 0x03 = PRM_PER_PERMEMSTATEOFF := hc
    simp only [if_pos hc, if_pos hc']
    rw [bind_ok (orReg_apply _ _ _), bind_ok (orReg_apply _ _ _)]
    obtain ⟨x, m2, h2⟩ := poll_answers env n _ _ hans _
    rw [bind_ok h2]
    exact ⟨_, rfl⟩
  · have hc' : ¬ prm &&& 0x03 = PRM_PER_PERMEMSTATEOFF := hc
    simp only [if_neg hc, if_neg hc']
    rw [bind_ok (pure_apply _ _), bind_ok (pure_apply _ _)]
    obtain ⟨x, m2, h2⟩ := poll_answers env n _ _ hans _
    rw [bind_ok h2]
    exact ⟨_, rfl⟩

theorem clk_block_total (env : (Reg → Nat) → Reg → Nat) (n : Nat) (c : Bool) (r : Reg)
    (hans : c = true → AnswersWithin env n r (fun v => !(v &&& (0x3 <<< 16) != 0)))
    (m : Machine) :
    ∃ m', ifdef c (uart_clk_enable env n r) m = Result.ok () m' := by
  cases c
  · exact ⟨m, rfl⟩
  · rw [ifdef_apply]
    simp only [if_true]
    unfold uart_clk_enable
    rw [bind_ok (orReg_apply _ _ _)]
    obtain ⟨x, m2, h2⟩ := poll_answers env n _ _ (hans rfl) _
    rw [bind_ok h2]
    exact ⟨_, rfl⟩

theorem start_uart_clk_total (C : BuildConfig) (B : Board) (env : (Reg → Nat) → Reg → Nat)
    (n : Nat) (hans : BootResponsive C B env n) (m : Machine) :
    ∃ m', start_uart_clk C B env n m = Result.ok () m' := by
  obtain ⟨_, h8, h10, hclk⟩ := hans
  unfold start_uart_clk
  rw [bind_ok (orReg_apply _ _ _)]
  obtain ⟨x, ma, ha⟩ := poll_answers env n _ _ h8 _
  rw [bind_ok ha]
  obtain ⟨m1, b1⟩ := clk_block_total env n C.RT_USING_UART1
    (CM_PER_UART1_CLKCTRL_REG B.AM33XX_PRCM_REGS) (fun hu => hclk 1 _ hu rfl) ma
  rw [bind_ok b1]
  obtain ⟨m2, b2⟩ := clk_block_total env n C.RT_USING_UART2
    (CM_PER_UART2_CLKCTRL_REG B.AM33XX_PRCM_REGS) (fun hu => hclk 2 _ hu rfl) m1
  rw [bind_ok b2]
  obtain ⟨m3, b3⟩ := clk_block_total env n C.RT_USING_UART3
    (CM_PER_UART3_CLKCTRL_REG B.AM33XX_PRCM_REGS) (fun hu => hclk 3 _ hu rfl) m2
  rw [bind_ok b3]
  obtain ⟨m4, b4⟩ := clk_block_total env n C.RT_USING_UART4
    (CM_PER_UART4_CLKCTRL_REG B.AM33XX_PRCM_REGS) (fun hu => hclk 4 _ hu rfl) m3
  rw [bind_ok b4]
  obtain ⟨m5, b5⟩ := clk_block_total env n C.RT_USING_UART5
    (CM_PER_UART5_CLKCTRL_REG B.AM33XX_PRCM_REGS) (fun hu => hclk 5 _ hu rfl) m4
  rw [bind_ok b5]
  obtain ⟨y, m6, h6⟩ := poll_answers env n _ _ h10 m5
  rw [bind_ok h6]
  exact ⟨_, rfl⟩

theorem init_total (K : RtDefs) (C : BuildConfig) (B : Board)
    (env : (Reg → Nat) → Reg → Nat) (n : Nat) (hans : BootResponsive C B env n)
    (m : Machine) :
    ∃ m', rt_hw_serial_init K C B env n m = Result.ok 0 m' := by
  obtain ⟨m1, h1⟩ := poweron_total B env n hans.1 m
  obtain ⟨m2, h2⟩ := start_uart_clk_total C B env n hans m1
  obtain ⟨m3, h3, _⟩ := config_pinmux_apply C B m2
  exact ⟨_, init_ok_of K C B env n m m1 m2 m3 h1 h2 h3⟩

/-! ### What a boot sequence that ended has done -/

theorem unitSteps_congr (K : RtDefs) (B : Board) (m m1 : Machine)
    (h : m1.serial = m.serial) : unitSteps K B m1 = unitSteps K B m := by
  funext i
  simp [unitSteps, unitRegistration, unitRecord, h]

theorem stepsOf_unitSteps (K : RtDefs) (B : Board) (m : Machine) (i : Nat) :
    stepsOf (unitSteps K B m i) = unitSteps K B m i := by
  simp [stepsOf, unitSteps, unitRegistration, Event.isStep, UART_IER_REG]

theorem stepsOf_flatMap_unitSteps (K : RtDefs) (B : Board) (m : Machine) (l : List Nat) :
    stepsOf (l.flatMap (unitSteps K B m)) = l.flatMap (unitSteps K B m) := by
  induction l with
  | nil => rfl
  | cons i l ih => rw [List.flatMap_cons, stepsOf_append, stepsOf_unitSteps, ih]

theorem registrationsOf_append (a b : List Event) :
    registrationsOf (a ++ b) = registrationsOf a ++ registrationsOf b := by
  simp [registrationsOf]

theorem registrationsOf_unitSteps (K : RtDefs) (B : Board) (m : Machine) (i : Nat) :
    registrationsOf (unitSteps K B m i) = [unitRegistration K B m i] := by
  simp [registrationsOf, unitSteps, unitRegistration, Event.isRegistration]

theorem registrationsOf_flatMap_unitSteps (K : RtDefs) (B : Board) (m : Machine)
    (l : List Nat) :
    registrationsOf (l.flatMap (unitSteps K B m)) = l.map (unitRegistration K B m) := by
  induction l with
  | nil => rfl
  | cons i l ih =>
    rw [List.flatMap_cons, registrationsOf_append, registrationsOf_unitSteps, ih]
    rfl

theorem registrationsOf_quiet (evs : List Event) (h : stepsOf evs = []) :
    registrationsOf evs = [] := by
  unfold registrationsOf
  unfold stepsOf at h
  rw [List.filter_eq_nil_iff] at h ⊢
  intro e he hr
  apply h e he
  cases e <;> first | rfl | exact Bool.noConfusion hr

theorem enabled_mem (C : BuildConfig) (i : Nat) (h : C.enabled i = true) :
    i ∈ enabledUnits C := by
  unfold enabledUnits
  rw [List.mem_filter]
  refine ⟨?_, h⟩
  rcases enabled_cases C i h with ⟨rfl, _⟩ | ⟨rfl, _⟩ | ⟨rfl, _⟩ | ⟨rfl, _⟩ |
    ⟨rfl, _⟩ | ⟨rfl, _⟩ <;> simp

/-- What `rt_hw_serial_init` has done when it returns. -/
theorem init_effect (K : RtDefs) (C : BuildConfig) (B : Board)
    (env : (Reg → Nat) → Reg → Nat) (fuel : Nat) (m : Machine) (v : Int) (m' : Machine)
    (h : rt_hw_serial_init K C B env fuel m = Result.ok v m') :
    v = 0 ∧
    ∃ quiet pads,
      m'.trace = m.trace ++ quiet ++ pads ++ (enabledUnits C).flatMap (unitSteps K B m) ∧
      stepsOf quiet = [] ∧ pads = (enabledUnits C).flatMap (padWrites B) ∧
      (∀ i r, C.enabled i = true → clkctrlOf B i = some r →
        ∃ old, Event.write r (word32 (old ||| 0x2)) ∈ quiet) ∧
      ∀ x, m'.masked x = (m.masked x || (enabledUnits C).any (fun i => (uart B i).irq == x)) := by
  obtain ⟨m1, m2, m3, h1, h2, h3, hv, hm⟩ := init_ok_inv K C B env fuel m v m' h
  obtain ⟨e1, t1, s1, k1, r1⟩ := poweron_quiet B env fuel m () m1 h1
  obtain ⟨e2, t2, s2, k2, r2, w2⟩ := start_uart_clk_quiet C B env fuel m1 () m2 h2
  obtain ⟨m3', h3', t3, k3, r3⟩ := config_pinmux_apply C B m2
  rw [h3] at h3'
  injection h3' with _ hm3
  subst hm3
  have hser : m3.serial = m.serial := by rw [r3, r2, r1]
  refine ⟨hv, e1 ++ e2, (enabledUnits C).flatMap (padWrites B), ?_, ?_, rfl, ?_, ?_⟩
  · rw [hm]
    unfold unitsDone
    rw [foldl_unitDone_trace, unitSteps_congr K B m m3 hser, t3, t2, t1]
    simp only [List.append_assoc]
  · rw [stepsOf_append, s1, s2]; rfl
  · intro i r hi hr
    obtain ⟨old, ho⟩ := w2 i r hi hr
    exact ⟨old, List.mem_append_right _ ho⟩
  · intro x
    rw [hm]
    unfold unitsDone
    rw [foldl_unitDone_masked, k3, k2, k1]

theorem testBit_or2 (old : Nat) : (word32 (old ||| 0x2)).testBit 1 = true := by
  rw [testBit_word32, Nat.testBit_or]
  have h : Nat.testBit 2 1 = true := by decide
  rw [h]
  simp

theorem mem_enabledUnits (C : BuildConfig) (i : Nat) :
    i ∈ enabledUnits C ↔ C.enabled i = true := by
  constructor
  · intro h
    unfold enabledUnits at h
    exact (List.mem_filter.mp h).2
  · exact enabled_mem C i

theorem enabledUnits_sorted (C : BuildConfig) : (enabledUnits C).Pairwise (· < ·) := by
  unfold enabledUnits
  exact List.Pairwise.filter _ (List.pairwise_lt_range 6)

theorem readyEnv_responsive (C : BuildConfig) : BootResponsive C exampleBoard readyEnv 1 := by
  refine ⟨fun regs => ⟨1, le_refl _, ?_⟩, fun regs => ⟨1, le_refl _, ?_⟩,
    fun regs => ⟨1, le_refl _, ?_⟩, ?_⟩
  · simp [readyEnv, word32, PRM_PER_PWRSTST_REG, CM_PER_L4LS_CLKSTCTRL_REG]
  · simp [readyEnv, word32, CM_PER_L4LS_CLKSTCTRL_REG]
  · simp [readyEnv, word32, CM_PER_L4LS_CLKSTCTRL_REG]
  · intro i r hi hr regs
    refine ⟨1, le_refl _, ?_⟩
    rcases enabled_cases C i hi with ⟨rfl, _⟩ | ⟨rfl, _⟩ | ⟨rfl, _⟩ | ⟨rfl, _⟩ |
      ⟨rfl, _⟩ | ⟨rfl, _⟩
    · exact Option.noConfusion hr
    all_goals
      injection hr with hr
      subst hr
      simp [readyEnv, word32, CM_PER_L4LS_CLKSTCTRL_REG, CM_PER_UART1_CLKCTRL_REG,
        CM_PER_UART2_CLKCTRL_REG, CM_PER_UART3_CLKCTRL_REG, CM_PER_UART4_CLKCTRL_REG,
        CM_PER_UART5_CLKCTRL_REG]

/-! ## Boot sequence: the claims -/

/-- C7 as stated fails.  With only unit 0 selected a boot sequence that returns
has written two power-control values, the L4LS clock-domain control and the
interrupt-enable register of unit 0: no clock-control register of a unit and no
pad-control register.  With only unit 3 selected it has written one
pad-control register, not two. -/
theorem init_bring_up_counterexample :
    (∃ m', rt_hw_serial_init exampleDefs onlyUart0 exampleBoard id 0 readyMachine
        = Result.ok 0 m' ∧
      writesOf m'.trace =
        [ (PRM_PER_PWRSTCTRL_REG 0x44E00000, 0x3),
          (PRM_PER_PWRSTCTRL_REG 0x44E00000, 0x6000003),
          (CM_PER_L4LS_CLKSTCTRL_REG 0x44E00000, 0x502),
          (UART_IER_REG 0x44E09000, 0x01) ] ∧
      (∀ a x, (REG32 a, x) ∉ writesOf m'.trace) ∧
      (∀ i r x, clkctrlOf exampleBoard i = some r → (r, x) ∉ writesOf m'.trace)) ∧
    (∃ m', rt_hw_serial_init exampleDefs onlyUart3 exampleBoard id 0 readyMachine
        = Result.ok 0 m' ∧
      writesOf m'.trace =
        [ (PRM_PER_PWRSTCTRL_REG 0x44E00000, 0x3),
          (PRM_PER_PWRSTCTRL_REG 0x44E00000, 0x6000003),
          (CM_PER_L4LS_CLKSTCTRL_REG 0x44E00000, 0x502),
          (CM_PER_UART3_CLKCTRL_REG 0x44E00000, 0x2),
          (REG32 (0x44E10000 + 0x800 + 0x164), 0x01),
          (UART_IER_REG 0x481A6000, 0x01) ] ∧
      (∀ a x, (REG32 a, x) ∈ writesOf m'.trace → a = 0x44E10000 + 0x800 + 0x164)) := by
  have k0 : ∃ m', rt_hw_serial_init exampleDefs onlyUart0 exampleBoard id 0 readyMachine
        = Result.ok 0 m' ∧
      writesOf m'.trace =
        [ (PRM_PER_PWRSTCTRL_REG 0x44E00000, 0x3),
          (PRM_PER_PWRSTCTRL_REG 0x44E00000, 0x6000003),
          (CM_PER_L4LS_CLKSTCTRL_REG 0x44E00000, 0x502),
          (UART_IER_REG 0x44E09000, 0x01) ] := ⟨_, rfl, rfl⟩
  have k3 : ∃ m', rt_hw_serial_init exampleDefs onlyUart3 exampleBoard id 0 readyMachine
        = Result.ok 0 m' ∧
      writesOf m'.trace =
        [ (PRM_PER_PWRSTCTRL_REG 0x44E00000, 0x3),
          (PRM_PER_PWRSTCTRL_REG 0x44E00000, 0x6000003),
          (CM_PER_L4LS_CLKSTCTRL_REG 0x44E00000, 0x502),
          (CM_PER_UART3_CLKCTRL_REG 0x44E00000, 0x2),
          (REG32 (0x44E10000 + 0x800 + 0x164), 0x01),
          (UART_IER_REG 0x481A6000, 0x01) ] := ⟨_, rfl, rfl⟩
  obtain ⟨m0, h0, w0⟩ := k0
  obtain ⟨m3, h3, w3⟩ := k3
  refine ⟨⟨m0, h0, w0, ?_, ?_⟩, ⟨m3, h3, w3, ?_⟩⟩
  · intro a x h
    rw [w0] at h
    simp [REG32, PRM_PER_PWRSTCTRL_REG, CM_PER_L4LS_CLKSTCTRL_REG, UART_IER_REG] at h
  · intro i r x hr h
    rw [w0] at h
    unfold clkctrlOf at hr
    split at hr <;>
    first
      | exact Option.noConfusion hr
      | (injection hr with hr
         subst hr
         simp [PRM_PER_PWRSTCTRL_REG, CM_PER_L4LS_CLKSTCTRL_REG, UART_IER_REG,
           CM_PER_UART1_CLKCTRL_REG, CM_PER_UART2_CLKCTRL_REG, CM_PER_UART3_CLKCTRL_REG,
           CM_PER_UART4_CLKCTRL_REG, CM_PER_UART5_CLKCTRL_REG] at h)
  · intro a x h
    rw [w3] at h
    simp [REG32, PRM_PER_PWRSTCTRL_REG, CM_PER_L4LS_CLKSTCTRL_REG, UART_IER_REG,
      CM_PER_UART3_CLKCTRL_REG] at h
    exact h.1

/-- C7, amended: for every set of selected units and every selected unit `i`,
once `rt_hw_serial_init` has returned it has installed `am33xx_uart_isr` on the
interrupt id of unit `i` and that line is masked at the interrupt controller;
when `i` is one of 1..5 it has written the clock-control register of unit `i`
with `|= 0x2` (module mode enabled); and it has made the pad-control writes
the pin table holds for `i`: two for units 1, 2, 4 and 5, one for unit 3,
none for unit 0. -/
theorem init_brings_up_selected_units (K : RtDefs) (C : BuildConfig) (B : Board)
    (env : (Reg → Nat) → Reg → Nat) (fuel : Nat) (m : Machine) (v : Int) (m' : Machine)
    (h : rt_hw_serial_init K C B env fuel m = Result.ok v m') :
    ∃ evs, m'.trace = m.trace ++ evs ∧
      ∀ i, C.enabled i = true →
        Event.interrupt_install (uart B i).irq Handler.am33xx_uart_isr i (unitName i) ∈ evs ∧
        m'.masked (uart B i).irq = true ∧
        (∀ r, clkctrlOf B i = some r →
          ∃ old, Event.write r (word32 (old ||| 0x2)) ∈ evs ∧
            (word32 (old ||| 0x2)).testBit 1 = true) ∧
        (∀ e ∈ padWrites B i, e ∈ evs) := by
  obtain ⟨_, quiet, pads, ht, _, hp, hclk, hmask⟩ := init_effect K C B env fuel m v m' h
  refine ⟨quiet ++ pads ++ (enabledUnits C).flatMap (unitSteps K B m), ?_, ?_⟩
  · rw [ht]
    simp only [List.append_assoc]
  · intro i hi
    have hmem := enabled_mem C i hi
    refine ⟨?_, ?_, ?_, ?_⟩
    · apply List.mem_append_right
      rw [List.mem_flatMap]
      exact ⟨i, hmem, by simp [unitSteps]⟩
    · rw [hmask]
      have : (enabledUnits C).any (fun j => (uart B j).irq == (uart B i).irq) = true := by
        rw [List.any_eq_true]
        exact ⟨i, hmem, by simp⟩
      rw [this]
      simp
    · intro r hr
      obtain ⟨old, ho⟩ := hclk i r hi hr
      exact ⟨old, List.mem_append_left _ (List.mem_append_left _ ho), testBit_or2 old⟩
    · intro e he
      apply List.mem_append_left
      apply List.mem_append_right
      rw [hp, List.mem_flatMap]
      exact ⟨i, hmem, he⟩

/-- Evaluation of amended C7: units 1 and 3 selected, hardware that is ready
one step later, started on `idleMachine`. -/
theorem init_brings_up_selected_units_witness :
    ∃ m', rt_hw_serial_init exampleDefs
        { onlyUart1 with RT_USING_UART3 := true } exampleBoard readyEnv 1 idleMachine
        = Result.ok 0 m' ∧
      ∃ evs, m'.trace = idleMachine.trace ++ evs ∧
        ∀ i, BuildConfig.enabled { onlyUart1 with RT_USING_UART3 := true } i = true →
          Event.interrupt_install (uart exampleBoard i).irq Handler.am33xx_uart_isr i
            (unitName i) ∈ evs ∧
          m'.masked (uart exampleBoard i).irq = true ∧
          (∀ r, clkctrlOf exampleBoard i = some r →
            ∃ old, Event.write r (word32 (old ||| 0x2)) ∈ evs ∧
              (word32 (old ||| 0x2)).testBit 1 = true) ∧
          (∀ e ∈ padWrites exampleBoard i, e ∈ evs) :=
  ⟨_, rfl,
   init_brings_up_selected_units exampleDefs { onlyUart1 with RT_USING_UART3 := true }
     exampleBoard readyEnv 1 idleMachine 0 _ rfl⟩

/-- C8: for every set of selected units, `rt_hw_serial_init` returns 0 (it
returns whenever the hardware answers its busy-waits), and what it does beside
the power, clock and pin set-up is, for each selected unit in ascending order
and for no other unit: write `0x01` to the unit's interrupt-enable register,
install the handler, configure the trigger, mask the line, and register the
unit under the name `uart<i>` with the flags RDWR | INT_RX | STREAM, the
controller `uart[i]` and a device record that holds the default configuration
and ring buffer `uart_int_rx[i]`.  With only unit 1 selected exactly one device
is registered, named `uart1`. -/
theorem init_registers_selected_units (K : RtDefs) (C : BuildConfig) (B : Board)
    (env : (Reg → Nat) → Reg → Nat) (m : Machine) :
    (∀ n, BootResponsive C B env n → ∃ m', rt_hw_serial_init K C B env n m = Result.ok 0 m') ∧
    (∀ fuel v m', rt_hw_serial_init K C B env fuel m = Result.ok v m' →
      v = 0 ∧
      stepsOf m'.trace = stepsOf m.trace ++ (enabledUnits C).flatMap (unitSteps K B m) ∧
      registrationsOf m'.trace
        = registrationsOf m.trace ++ (enabledUnits C).map (unitRegistration K B m)) ∧
    (∀ i, i ∈ enabledUnits C ↔ C.enabled i = true) ∧
    (enabledUnits C).Pairwise (· < ·) ∧
    (∀ fuel v m', rt_hw_serial_init K onlyUart1 B env fuel m = Result.ok v m' →
      registrationsOf m'.trace = registrationsOf m.trace ++
        [ Event.serial_register 1
            { ops := some OpsRef.am33xx_uart_ops
              int_rx := some 1
              config := ⟨K.BAUD_RATE_115200, K.DATA_BITS_8, K.STOP_BITS_1, K.PARITY_NONE,
                K.BIT_ORDER_LSB, K.NRZ_NORMAL⟩
              user_data := (m.serial 1).user_data }
            "uart1"
            (K.RT_DEVICE_FLAG_RDWR ||| K.RT_DEVICE_FLAG_INT_RX ||| K.RT_DEVICE_FLAG_STREAM)
            ⟨B.UART1_BASE, B.UART1_INT⟩ ]) := by
  have main : ∀ (C : BuildConfig) fuel v m',
      rt_hw_serial_init K C B env fuel m = Result.ok v m' →
      v = 0 ∧
      stepsOf m'.trace = stepsOf m.trace ++ (enabledUnits C).flatMap (unitSteps K B m) ∧
      registrationsOf m'.trace
        = registrationsOf m.trace ++ (enabledUnits C).map (unitRegistration K B m) := by
    intro C fuel v m' h
    obtain ⟨hv, quiet, pads, ht, hq, hp, _, _⟩ := init_effect K C B env fuel m v m' h
    have hpq : stepsOf pads = [] := by rw [hp]; exact stepsOf_flatMap_padWrites B _
    refine ⟨hv, ?_, ?_⟩
    · rw [ht]
      simp only [stepsOf_append, hq, hpq, List.append_nil, stepsOf_flatMap_unitSteps]
    · rw [ht]
      simp only [registrationsOf_append, registrationsOf_quiet _ hq,
        registrationsOf_quiet _ hpq, List.append_nil, registrationsOf_flatMap_unitSteps]
  refine ⟨fun n hans => init_total K C B env n hans m, main C, mem_enabledUnits C,
    enabledUnits_sorted C, ?_⟩
  intro fuel v m' h
  exact (main onlyUart1 fuel v m' h).2.2

/-- Evaluation of C8: only unit 1 selected, hardware that is ready one step
later, started on `idleMachine`: the call returns 0, its glue steps are the five
of unit 1 in order, and one device is registered, named `uart1`. -/
theorem init_registers_selected_units_witness :
    BootResponsive onlyUart1 exampleBoard readyEnv 1 ∧
    (∃ m', rt_hw_serial_init exampleDefs onlyUart1 exampleBoard readyEnv 1 idleMachine
      = Result.ok 0 m') ∧
    ∃ m', rt_hw_serial_init exampleDefs onlyUart1 exampleBoard readyEnv 1 idleMachine
        = Result.ok 0 m' ∧
      registrationsOf m'.trace =
        [ Event.serial_register 1
            { ops := some OpsRef.am33xx_uart_ops, int_rx := some 1,
              config := ⟨115200, 8, 0, 0, 0, 0⟩, user_data := none }
            "uart1" 0x143 ⟨0x48022000, 73⟩ ] ∧
      stepsOf m'.trace =
        [ Event.write (UART_IER_REG 0x48022000) 0x01,
          Event.interrupt_install 73 Handler.am33xx_uart_isr 1 "uart1",
          Event.interrupt_control 73 0 0,
          Event.interrupt_mask 73,
          Event.serial_register 1
            { ops := some OpsRef.am33xx_uart_ops, int_rx := some 1,
              config := ⟨115200, 8, 0, 0, 0, 0⟩, user_data := none }
            "uart1" 0x143 ⟨0x48022000, 73⟩ ] :=
  ⟨readyEnv_responsive onlyUart1,
   (init_registers_selected_units exampleDefs onlyUart1 exampleBoard readyEnv idleMachine).1 1
     (readyEnv_responsive onlyUart1),
   _, rfl,
   (init_registers_selected_units exampleDefs onlyUart1 exampleBoard readyEnv
     idleMachine).2.2.2.2 1 0 _ rfl,
   ((init_registers_selected_units exampleDefs onlyUart1 exampleBoard readyEnv
     idleMachine).2.1 1 0 _ rfl).2.1⟩

end Am33xxSerial
